import Mathlib

/-!
Verification of the scene-weaver generation pipeline
(`src/hooks/useGeminiApi.ts`, latest evolution) against its specification.

The pipeline is embedded shallowly: strings are `List Char`, the JavaScript
float time buffer of the segmenter is modelled over `ℚ` (all comparison
margins in the verified statements are far larger than double rounding
error), remote responses are oracles supplied as function arguments, and
JavaScript objects keyed by character id are association lists.
-/

set_option maxHeartbeats 1600000

namespace SceneWeaver

/-- Character strings, as the pipeline manipulates them. -/
abbrev Str := List Char

/-- JavaScript `\s` whitespace test (the ASCII part, which is all the
pipeline's constants use). -/
def isJsWs (c : Char) : Bool :=
  c = ' ' || c = '\t' || c = '\n' || c = '\r' || c.toNat = 11 || c.toNat = 12

/-- Sentence-terminating punctuation of the segmenter's split regex
`(?<=[.!?])\s+`. -/
def isSentPunct (c : Char) : Bool :=
  c = '.' || c = '!' || c = '?'

/-- JavaScript `String.prototype.trim` (over the modelled whitespace set). -/
def jsTrim (s : Str) : Str :=
  ((s.dropWhile isJsWs).reverse.dropWhile isJsWs).reverse

/-- Dropping a prefix never lengthens a list (termination helper). -/
theorem length_dropWhile_le (p : Char → Bool) (l : Str) :
    (l.dropWhile p).length ≤ l.length := by
  induction l with
  | nil => simp
  | cons c rest ih =>
    by_cases h : p c
    · simpa [List.dropWhile, h] using Nat.le_succ_of_le ih
    · simp [List.dropWhile, h]

/-- One step of JavaScript `split(/\s+/)`: cut the string at each maximal
whitespace run (the run is consumed).  A leading run yields a leading empty
piece and a trailing run a trailing empty piece, exactly as in JavaScript. -/
def splitWsGo : Str → Str → List Str
  | [], acc => [acc.reverse]
  | c :: rest, acc =>
    if isJsWs c then
      acc.reverse :: splitWsGo (rest.dropWhile isJsWs) []
    else
      splitWsGo rest (c :: acc)
termination_by s _ => s.length
decreasing_by
  · simp only [List.length_cons]
    exact Nat.lt_succ_of_le (length_dropWhile_le isJsWs rest)
  · simp

/-- JavaScript `s.split(/\s+/)`. -/
def splitWs (s : Str) : List Str := splitWsGo s []

/-- `sentence.trim().split(/\s+/).filter(w => w).length` — the word count
the segmenter assigns to one sentence. -/
def jsWordCount (s : Str) : Nat :=
  ((splitWs (jsTrim s)).filter (fun w => ¬ w.isEmpty)).length

/-- The number of maximal non-whitespace runs of a string: the natural
"total word count of the script". `inWord` records whether the previous
character was part of a word. -/
def wordRunsGo : Str → Bool → Nat
  | [], _ => 0
  | c :: rest, inWord =>
    if isJsWs c then wordRunsGo rest false
    else (if inWord then 0 else 1) + wordRunsGo rest true

/-- Total word count of a script (number of maximal non-whitespace runs). -/
def scriptWordCount (s : Str) : Nat := wordRunsGo s false

/-- JavaScript `script.split(/(?<=[.!?])\s+/)`: the separators are exactly
the maximal whitespace runs immediately preceded by `.`, `!` or `?`; the run
is consumed.  `acc` is the reversed current piece. -/
def sentSplitGo : Str → Str → List Str
  | [], acc => [acc.reverse]
  | c :: rest, acc =>
    if isSentPunct c ∧ (rest.head?.map isJsWs).getD false then
      (acc.reverse ++ [c]) :: sentSplitGo (rest.dropWhile isJsWs) []
    else
      sentSplitGo rest (c :: acc)
termination_by s _ => s.length
decreasing_by
  · simp only [List.length_cons]
    exact Nat.lt_succ_of_le (length_dropWhile_le isJsWs rest)
  · simp

/-- `script.split(/(?<=[.!?])\s+/)`. -/
def sentSplit (s : Str) : List Str := sentSplitGo s []

/-- `script.split(/(?<=[.!?])\s+/).filter(s => s.trim())` — the sentence
list the segmenter iterates over. -/
def sentences (s : Str) : List Str :=
  (sentSplit s).filter (fun p => ¬ (jsTrim p).isEmpty)

/-!  ## Segmenter (`splitScriptDeterministically`)  -/

/-- `const WPM = 121` (narration speed in words per minute). -/
def WPM : ℚ := 121

/-- `const WORDS_PER_SECOND = WPM / 60` (≈ 2.017 words/sec). -/
def WORDS_PER_SECOND : ℚ := WPM / 60

/-- JavaScript `Math.round` on a non-negative quantity: half-up rounding. -/
def jsRound (q : ℚ) : ℤ := ⌊q + 1 / 2⌋

/-- Output unit of the segmenter. -/
structure TextFragment where
  text : Str
  wordCount : Nat
  durationSec : Nat
  startWord : Nat
  endWord : Nat
deriving Repr, DecidableEq, Inhabited

/-- `Math.max(4, Math.round(wordCount / WORDS_PER_SECOND))` — the real
duration a fragment is stamped with. -/
def fragmentDuration (wordCount : Nat) : Nat :=
  max 4 (jsRound ((wordCount : ℚ) / WORDS_PER_SECOND)).toNat

/-- The segmenter's sentence loop.  State: remaining sentences, the running
time buffer, the current fragment's sentences, its word count, and the index
of its first word.  A fragment is flushed as soon as the buffer reaches the
target `sceneDuration` (the buffer is then debited by the nominal target,
while the fragment keeps its *actual* word-derived duration); any remainder
becomes a final fragment. -/
def splitGo (sceneDuration : ℚ) :
    List Str → ℚ → List Str → Nat → Nat → List TextFragment
  | [], _, cur, curWC, fragStart =>
    if cur.isEmpty then []
    else
      [{ text := List.intercalate [' '] cur
         wordCount := curWC
         durationSec := fragmentDuration curWC
         startWord := fragStart
         endWord := fragStart + curWC - 1 }]
  | s :: rest, timeBuffer, cur, curWC, fragStart =>
    let sw := jsWordCount s
    let buf := timeBuffer + (sw : ℚ) / WORDS_PER_SECOND
    let cur' := cur ++ [s]
    let wc := curWC + sw
    if buf ≥ sceneDuration then
      { text := List.intercalate [' '] cur'
        wordCount := wc
        durationSec := fragmentDuration wc
        startWord := fragStart
        endWord := fragStart + wc - 1 } ::
        splitGo sceneDuration rest (buf - sceneDuration) [] 0 (fragStart + wc)
    else
      splitGo sceneDuration rest buf cur' wc fragStart

/-- `splitScriptDeterministically(script, sceneDuration)`. -/
def splitScriptDeterministically (script : Str) (sceneDuration : ℚ) :
    List TextFragment :=
  splitGo sceneDuration (sentences script) 0 [] 0 0

/-!  ## Data model (`types/prompt.ts`)  -/

/-- Locked identity fields — never change across scenes. -/
structure CharacterIdentity where
  name : Str
  species : Str
  gender : Str
  age : Str
  body_build : Str
  face_shape : Str
  hair : Str
  facial_hair : Str
  skin_or_fur_color : Str
  eye_color : Str
  signature_feature : Str
  outfit_top : Str
  outfit_bottom : Str
  helmet_or_hat : Str
  shoes_or_footwear : Str
  accessories : Str
  texture_detail : Str
  material_reference : Str
deriving Repr, DecidableEq, Inhabited

/-- Per-scene `action_flow` of a character performance. -/
structure ActionFlow where
  pre_action : Str
  main_action : Str
  post_action : Str
deriving Repr, DecidableEq, Inhabited

/-- Variable per scene — the performance half of a `CharacterLock`. -/
structure CharacterPerformance where
  position : Str
  orientation : Str
  pose : Str
  expression : Str
  action_flow : ActionFlow
deriving Repr, DecidableEq, Inhabited

/-- `CharacterLock = CharacterIdentity & CharacterPerformance`. -/
structure CharacterLock extends CharacterIdentity, CharacterPerformance
deriving Repr, DecidableEq, Inhabited

structure BackgroundLock where
  setting : Str
  scenery : Str
  lighting : Str
deriving Repr, DecidableEq, Inhabited

structure Camera where
  framing : Str
  angle : Str
  movement : Str
  focus : Str
deriving Repr, DecidableEq, Inhabited

structure FoleyAmbience where
  ambience : List Str
  fx : List Str
  music : Str
deriving Repr, DecidableEq, Inhabited

/-- A character status transition reported by annotation. -/
structure StateChange where
  character_id : Str
  new_status : Str
  note : Option Str
deriving Repr, DecidableEq, Inhabited

/-- One entry of the character state map. -/
structure CharacterStateEntry where
  status : Str
  changedAtScene : Nat
  note : Option Str
deriving Repr, DecidableEq, Inhabited

/-- A segment: a text fragment annotated with presence and action data. -/
structure SceneSegment where
  text : Str
  duration_sec : Nat
  characters_present : List Str
  action_hint : Str
  state_changes : Option (List StateChange) := none
deriving Repr, DecidableEq, Inhabited

/-- Final output unit, one per segment. -/
structure FullScenePrompt where
  scene_id : Str
  duration_sec : Nat
  visual_style : Str
  text_fragment : Str
  character_lock : List (Str × CharacterLock)
  background_lock : BackgroundLock
  camera : Camera
  foley_and_ambience : FoleyAmbience
  scene_action_summary : Str
deriving Repr, DecidableEq, Inhabited

/-- `Record<string, CharacterIdentity>` keyed by `CHAR_A`, `CHAR_B`, …,
in `Object.entries` order. -/
abbrev IdMap := List (Str × CharacterIdentity)

/-- `Record<string, CharacterStateEntry>`. -/
abbrev StateMap := List (Str × CharacterStateEntry)

/-- Object property read `m[k]` (first binding wins; the maps never hold
duplicate keys). -/
def lookupId {α : Type} (m : List (Str × α)) (k : Str) : Option α :=
  (m.find? (fun p => p.1 = k)).map Prod.snd

/-- Object property write `m[k] = v`: overwrite the (unique) existing
binding in place, else append. -/
def setId {α : Type} : List (Str × α) → Str → α → List (Str × α)
  | [], k, v => [(k, v)]
  | p :: m, k, v => if p.1 = k then (k, v) :: m else p :: setId m k v

/-- Frozen per-run analysis. -/
structure StoryAnalysis where
  characters : IdMap
  era : Str
  visual_style_lock : Str
  scenes : List SceneSegment
  characterStates : StateMap
deriving Repr, DecidableEq, Inhabited

/-!  ## Text replacement helpers  -/

/-- Global literal replacement (`text.replace(new RegExp(pat, 'g'), rep)`
for a metacharacter-free pattern): leftmost non-overlapping occurrences of
`pat` are replaced by `rep`.  An empty pattern (unreachable: ids are
`CHAR_A`, …) leaves the text unchanged. -/
def replaceAll (pat rep : Str) : Str → Str
  | [] => []
  | c :: rest =>
    if pat.isPrefixOf (c :: rest) ∧ ¬ pat.isEmpty then
      rep ++ replaceAll pat rep (rest.drop (pat.length - 1))
    else
      c :: replaceAll pat rep rest
termination_by s => s.length
decreasing_by
  · simp only [List.length_cons, List.length_drop]
    omega
  · simp

/-- `replaceCharIdsWithNames`: substitute each character id by the
character's real name (entries with an empty name are skipped). -/
def replaceCharIdsWithNames (text : Str) (ids : IdMap) : Str :=
  ids.foldl
    (fun acc p => if p.2.name.isEmpty then acc else replaceAll p.1 p.2.name acc)
    text

/-!  ## Sanitization detector  -/

/-- `text.toLowerCase()` (ASCII case folding). -/
def toLower (s : Str) : Str := s.map Char.toLower

/-- `hay.includes(needle)`. -/
def includesSub (hay needle : Str) : Bool := decide (needle <:+: hay)

/-- `DISTRESS_NARRATION_KEYWORDS`. -/
def DISTRESS_NARRATION_KEYWORDS : List Str :=
  [ "metieron dentro".data, "gritaba".data, "gritando".data, "gritos".data,
    "alaridos".data,
    "fuego".data, "quemarse".data, "quemaba".data, "ardía".data,
    "calentarse".data, "caliente".data,
    "morir".data, "murió".data, "muerte".data, "matar".data, "mataron".data,
    "dolor".data, "agonía".data, "sufrimiento".data, "tortura".data,
    "torturado".data,
    "encendieron".data, "llamas".data, "bronce caliente".data,
    "dentro del toro".data, "interior del toro".data, "metieron".data,
    "arrastraron".data, "arrastrando".data, "forzaron".data,
    "ejecutar".data, "ejecutaron".data, "ejecución".data,
    "suplicaba".data, "suplicando".data, "súplicas".data,
    "screaming".data, "burning".data, "fire".data, "death".data,
    "torture".data, "agony".data,
    "forced inside".data, "dragged".data, "executed".data ]

/-- `SANITIZED_SCENE_KEYWORDS`. -/
def SANITIZED_SCENE_KEYWORDS : List Str :=
  [ "workshop".data, "taller".data, "working".data, "trabajando".data,
    "crafting".data, "examining".data, "examinando".data,
    "stands by".data, "de pie junto a".data, "standing beside".data,
    "his work".data, "su trabajo".data, "workbench".data,
    "banco de trabajo".data,
    "gesturing intently".data, "gesticulando".data,
    "calmly".data, "tranquilamente".data, "peacefully".data,
    "observing".data, "observando".data, "watching".data,
    "late afternoon".data, "tarde".data, "evening workshop".data,
    "pauses his work".data, "detiene su trabajo".data ]

/-- Result of `detectSanitizedScene`. -/
structure SanitizeCheck where
  isSanitized : Bool
  reason : Str
deriving Repr, DecidableEq, Inhabited

/-- `detectSanitizedScene`: flags a scene whose narration carries distress
vocabulary while the synthesized setting or action summary reads as a safe,
mundane scene.  The fourth source argument (`_actionHint`) is unused by the
source and omitted here. -/
def detectSanitizedScene (narrationText generatedSetting generatedActionSummary : Str) :
    SanitizeCheck :=
  let narrationLower := toLower narrationText
  let settingLower := toLower generatedSetting
  let actionLower := toLower generatedActionSummary
  let hasDistressNarration :=
    DISTRESS_NARRATION_KEYWORDS.any (fun k => includesSub narrationLower (toLower k))
  if ¬ hasDistressNarration then
    { isSanitized := false, reason := [] }
  else
    let hasSanitizedSetting :=
      SANITIZED_SCENE_KEYWORDS.any (fun k => includesSub settingLower (toLower k))
    let hasSanitizedAction :=
      SANITIZED_SCENE_KEYWORDS.any (fun k => includesSub actionLower (toLower k))
    if hasSanitizedSetting ∨ hasSanitizedAction then
      let reasons :=
        (if hasSanitizedSetting then ["setting mismatch".data] else []) ++
        (if hasSanitizedAction then ["action mismatch".data] else [])
      { isSanitized := true
        reason := "Narration suggests distress but scene shows safe context (".data
          ++ List.intercalate ", ".data reasons ++ ")".data }
    else
      { isSanitized := false, reason := [] }

/-!  ## Local fallback builder (`buildLocalScene`)  -/

/-- The fixed performance placeholder the fallback builder stamps on each
present character; only `main_action` depends on the (processed) hint. -/
def localPerformance (processedActionHint : Str) : CharacterPerformance :=
  { position := "Continuation from previous scene".data
    orientation := "Facing toward action".data
    pose := "Dynamic pose matching scene context".data
    expression := "Intense, matching scene emotion".data
    action_flow :=
      { pre_action := "Character prepares for action".data
        main_action := processedActionHint
        post_action := "Character reacts to action outcome".data } }

/-- Generic background used when there is no previous accepted scene. -/
def defaultBackground : BackgroundLock :=
  { setting := "Interior chamber".data
    scenery := "Dramatic scene environment".data
    lighting := "Dramatic lighting with shadows".data }

/-- Generic camera used when there is no previous accepted scene. -/
def defaultCamera : Camera :=
  { framing := "Medium shot".data
    angle := "Eye level".data
    movement := "Static".data
    focus := "Subject in focus".data }

/-- Generic audio used when there is no previous accepted scene. -/
def defaultFoley : FoleyAmbience :=
  { ambience := ["ambient environment sounds".data]
    fx := ["action sounds".data]
    music := "Tense dramatic score".data }

/-- The character lock the fallback builder assembles: locked identity
stamped with the placeholder performance, one entry per present character
that exists in the identity map. -/
def buildLocalLock (present : List Str) (ids : IdMap)
    (processedActionHint : Str) : List (Str × CharacterLock) :=
  match present with
  | [] => []
  | c :: rest =>
    match lookupId ids c with
    | some identity =>
      (c, { toCharacterIdentity := identity
            toCharacterPerformance := localPerformance processedActionHint }) ::
        buildLocalLock rest ids processedActionHint
    | none => buildLocalLock rest ids processedActionHint

/-- `buildLocalScene`: remote-free construction of a scene prompt, used for
`[BLOCKED]` and `[SANITIZED]` scenes.  Background, camera and audio are
inherited from the previous accepted scene (generic defaults when absent),
and the action summary is prefixed by the marker. -/
def buildLocalScene (sceneId : Str) (seg : SceneSegment) (present : List Str)
    (ids : IdMap) (visualStyleLock : Str) (prev : Option FullScenePrompt)
    (marker : Str) : FullScenePrompt :=
  let processedActionHint :=
    replaceCharIdsWithNames
      (if seg.action_hint.isEmpty then "Character performs scene action".data
       else seg.action_hint) ids
  let characterLock := buildLocalLock present ids processedActionHint
  let inheritedBackground := (prev.map (·.background_lock)).getD defaultBackground
  let inheritedCamera := (prev.map (·.camera)).getD defaultCamera
  let markedActionSummary :=
    replaceCharIdsWithNames
      (marker ++ " ".data ++
        (if seg.action_hint.isEmpty then "Scene action - requires manual review".data
         else seg.action_hint)) ids
  { scene_id := sceneId
    duration_sec := seg.duration_sec
    visual_style := visualStyleLock
    text_fragment := seg.text
    character_lock := characterLock
    background_lock := inheritedBackground
    camera := inheritedCamera
    foley_and_ambience := (prev.map (·.foley_and_ambience)).getD defaultFoley
    scene_action_summary := markedActionSummary }

/-!  ## Scene prompt synthesis (`generateScenePromptFull`)

The remote call and JSON extraction are modelled as an oracle giving, per
attempt, either a failure (call error, block, or unparseable response) or a
parsed `SceneData` payload.  Request-side inputs (`era`, `totalScenes`,
`previousFraming`, `characterStates`) only shape the outgoing prompt text
and do not influence response processing, so they are not parameters of the
embedding. -/

/-- `action_flow` of a raw (remote-supplied) performance; any field may be
missing. -/
structure RawActionFlow where
  pre_action : Option Str
  main_action : Option Str
  post_action : Option Str
deriving Repr, DecidableEq, Inhabited

/-- A raw per-character performance from the parsed response. -/
structure RawPerformance where
  position : Option Str
  orientation : Option Str
  pose : Option Str
  expression : Option Str
  action_flow : Option RawActionFlow
deriving Repr, DecidableEq, Inhabited

/-- Raw `background_lock` from the parsed response. -/
structure RawBackground where
  setting : Option Str
  scenery : Option Str
  lighting : Option Str
deriving Repr, DecidableEq, Inhabited

/-- Raw `camera` from the parsed response. -/
structure RawCamera where
  framing : Option Str
  angle : Option Str
  movement : Option Str
  focus : Option Str
deriving Repr, DecidableEq, Inhabited

/-- The structured payload extracted from one successful remote response. -/
structure SceneData where
  character_performances : List (Str × RawPerformance)
  background_lock : Option RawBackground
  camera : Option RawCamera
  foley_and_ambience : Option FoleyAmbience
  scene_action_summary : Option Str
deriving Repr, DecidableEq, Inhabited

/-- One synthesis attempt, as seen through the call + parse boundary. -/
inductive AttemptOutcome where
  | failure
  | parsed (d : SceneData)

/-- Stamping: merge the locked identity with the processed per-scene
performance, replacing character ids by real names in every performance
text field.  One entry per present character that has both an identity and
a returned performance. -/
def stampLock (present : List Str) (ids : IdMap)
    (perfs : List (Str × RawPerformance)) : List (Str × CharacterLock) :=
  match present with
  | [] => []
  | c :: rest =>
    match lookupId ids c, lookupId perfs c with
    | some identity, some performance =>
      let flow := performance.action_flow
      (c, { toCharacterIdentity := identity
            position := replaceCharIdsWithNames (performance.position.getD []) ids
            orientation := replaceCharIdsWithNames (performance.orientation.getD []) ids
            pose := replaceCharIdsWithNames (performance.pose.getD []) ids
            expression := replaceCharIdsWithNames (performance.expression.getD []) ids
            action_flow :=
              { pre_action :=
                  replaceCharIdsWithNames ((flow.bind (·.pre_action)).getD []) ids
                main_action :=
                  replaceCharIdsWithNames ((flow.bind (·.main_action)).getD []) ids
                post_action :=
                  replaceCharIdsWithNames ((flow.bind (·.post_action)).getD []) ids } }) ::
        stampLock rest ids perfs
    | _, _ => stampLock rest ids perfs

/-- Processing of one successfully parsed response into the final prompt
(sanitization is checked afterwards on the processed fields). -/
def genSceneSuccess (seg : SceneSegment) (sceneId : Str) (ids : IdMap)
    (visualStyleLock : Str) (d : SceneData) : FullScenePrompt :=
  let characterLock := stampLock seg.characters_present ids d.character_performances
  let actionSummary := replaceCharIdsWithNames (d.scene_action_summary.getD []) ids
  let rawBackground :=
    d.background_lock.getD { setting := none, scenery := none, lighting := none }
  let processedBackground : BackgroundLock :=
    { setting := replaceCharIdsWithNames (rawBackground.setting.getD []) ids
      scenery := replaceCharIdsWithNames (rawBackground.scenery.getD []) ids
      lighting := rawBackground.lighting.getD [] }
  let rawCamera :=
    d.camera.getD { framing := none, angle := none, movement := none, focus := none }
  let processedCamera : Camera :=
    { framing := rawCamera.framing.getD []
      angle := rawCamera.angle.getD []
      movement := replaceCharIdsWithNames (rawCamera.movement.getD []) ids
      focus := replaceCharIdsWithNames (rawCamera.focus.getD []) ids }
  { scene_id := sceneId
    duration_sec := seg.duration_sec
    visual_style := visualStyleLock
    text_fragment := seg.text
    character_lock := characterLock
    background_lock := processedBackground
    camera := processedCamera
    foley_and_ambience :=
      d.foley_and_ambience.getD { ambience := [], fx := [], music := [] }
    scene_action_summary := actionSummary }

/-- `const MAX_RETRIES = 2`. -/
def MAX_RETRIES : Nat := 2

/-- `S${sceneIndex + 1}`. -/
def sceneIdOf (sceneIndex : Nat) : Str := "S".data ++ (Nat.repr (sceneIndex + 1)).data

/-- The attempt loop of `generateScenePromptFull`.  `fuel` counts the
attempts still available (initially `MAX_RETRIES + 1`); the second
component records the back-off delays slept between attempts (milliseconds,
`(attempt + 1) * 3000` before retrying attempt `attempt + 1`).  When every
attempt fails the scene is built locally with the `[BLOCKED]` marker; a
parsed response that the detector flags is discarded and built locally with
the `[SANITIZED]` marker. -/
def genSceneGo (seg : SceneSegment) (sceneId : Str) (ids : IdMap)
    (visualStyleLock : Str) (prev : Option FullScenePrompt)
    (oracle : Nat → AttemptOutcome) :
    Nat → Nat → FullScenePrompt × List Nat
  | _, 0 =>
    (buildLocalScene sceneId seg seg.characters_present ids visualStyleLock prev
      "[BLOCKED]".data, [])
  | attempt, fuel + 1 =>
    match oracle attempt with
    | .parsed d =>
      let p := genSceneSuccess seg sceneId ids visualStyleLock d
      if (detectSanitizedScene seg.text p.background_lock.setting
            p.scene_action_summary).isSanitized then
        (buildLocalScene sceneId seg seg.characters_present ids visualStyleLock prev
          "[SANITIZED]".data, [])
      else
        (p, [])
    | .failure =>
      let rest := genSceneGo seg sceneId ids visualStyleLock prev oracle (attempt + 1) fuel
      if fuel = 0 then rest
      else (rest.1, (attempt + 1) * 3000 :: rest.2)

/-- `generateScenePromptFull`, returning the produced prompt and the list
of retry back-off delays that were slept. -/
def generateScenePromptFull (seg : SceneSegment) (sceneIndex : Nat) (ids : IdMap)
    (visualStyleLock : Str) (prev : Option FullScenePrompt)
    (oracle : Nat → AttemptOutcome) : FullScenePrompt × List Nat :=
  genSceneGo seg (sceneIdOf sceneIndex) ids visualStyleLock prev oracle 0 (MAX_RETRIES + 1)

/-!  ## Scene annotation and character state tracking (`analyzeStoryDeep`)

The two identity-extraction calls are remote and fatal on parse failure;
their (frozen) results enter the embedding as the `charData`/`era`
parameters.  The per-batch annotation responses are an oracle: either a
parse failure (the whole batch degrades to defaults) or a list of parsed
annotations. -/

/-- One parsed annotation from a batch response; any field may be missing. -/
structure RawAnnotation where
  characters_present : Option (List Str)
  action_hint : Option Str
  state_changes : Option (List StateChange)
deriving Repr, DecidableEq, Inhabited

/-- Outcome of one annotation batch call, after JSON extraction. -/
inductive BatchOutcome where
  | parseFail
  | ok (annotations : List RawAnnotation)

/-- `const BATCH_SIZE = 20` (fragments per annotation batch). -/
def BATCH_SIZE : Nat := 20

/-- `characterIds.split(', ')[0] || 'CHAR_A'` — the default present
character when annotation degrades. -/
def firstCharId (ids : IdMap) : Str :=
  match ids with
  | [] => "CHAR_A".data
  | p :: _ => if p.1.isEmpty then "CHAR_A".data else p.1

/-- `alive, scene 0` initialization of the character state map, one entry
per identity-map key. -/
def initStates (ids : IdMap) : StateMap :=
  ids.map (fun p => (p.1, { status := "alive".data, changedAtScene := 0, note := none }))

/-- Application of one scene's `state_changes` list to the state map
(`characterStates[change.character_id] = {status, changedAtScene, note}`
for every change with a non-empty id and status). -/
def applyStateChanges (states : StateMap) (sceneIndex : Nat)
    (changes : List StateChange) : StateMap :=
  changes.foldl
    (fun st ch =>
      if ¬ ch.character_id.isEmpty ∧ ¬ ch.new_status.isEmpty then
        setId st ch.character_id
          { status := ch.new_status, changedAtScene := sceneIndex, note := ch.note }
      else st)
    states

/-- The degraded segment a fragment becomes when its batch fails to parse. -/
def defaultSegment (frag : TextFragment) (firstId : Str) : SceneSegment :=
  { text := frag.text
    duration_sec := frag.durationSec
    characters_present := [firstId]
    action_hint := "Scene action to be determined".data
    state_changes := none }

/-- Processing of the fragments of one successfully parsed batch:
`annotateData.annotations?.[i] || {}` per fragment, state changes applied to
the shared map in scene order, and the segment assembled with fallbacks for
missing fields (note that a present-but-empty `characters_present` array is
kept as is, while an empty `action_hint` string falls back). -/
def annotateParsedBatch (firstId : Str) (anns : List RawAnnotation) :
    List TextFragment → Nat → Nat → StateMap → List SceneSegment × StateMap
  | [], _, _, states => ([], states)
  | frag :: frags, i, sceneIndex, states =>
    let ann := (anns.getD i { characters_present := none, action_hint := none,
                              state_changes := none })
    let stateChanges := ann.state_changes.getD []
    let states' := applyStateChanges states sceneIndex stateChanges
    let hint := ann.action_hint.getD []
    let seg : SceneSegment :=
      { text := frag.text
        duration_sec := frag.durationSec
        characters_present := ann.characters_present.getD [firstId]
        action_hint := if hint.isEmpty then "Scene action".data else hint
        state_changes := if stateChanges.isEmpty then none else some stateChanges }
    let (segs, finalStates) := annotateParsedBatch firstId anns frags (i + 1) (sceneIndex + 1) states'
    (seg :: segs, finalStates)

/-- The annotation loop over batches of `BATCH_SIZE` fragments.  `oracle b`
is the parse outcome of batch `b`; `batchStart` is the scene index of the
batch's first fragment. -/
def annotateGo (firstId : Str) (oracle : Nat → BatchOutcome) :
    List TextFragment → Nat → Nat → StateMap → List SceneSegment × StateMap
  | [], _, _, states => ([], states)
  | frags@(_ :: _), b, batchStart, states =>
    let batch := frags.take BATCH_SIZE
    let rest := frags.drop BATCH_SIZE
    let (segs, states') :=
      match oracle b with
      | .parseFail => (batch.map (fun f => defaultSegment f firstId), states)
      | .ok anns => annotateParsedBatch firstId anns batch 0 batchStart states
    let (moreSegs, finalStates) :=
      annotateGo firstId oracle rest (b + 1) (batchStart + batch.length) states'
    (segs ++ moreSegs, finalStates)
termination_by frags _ _ _ => frags.length
decreasing_by
  simp_all only [List.length_drop, List.length_cons, BATCH_SIZE]
  omega

/-- `analyzeStoryDeep`, given the frozen identity-extraction results: the
deterministic pre-split, the batched annotation, and the assembled
`StoryAnalysis` with its character state map. -/
def analyzeStoryDeep (script : Str) (sceneDuration : ℚ) (charData : IdMap)
    (era visualStyle : Str) (oracle : Nat → BatchOutcome) : StoryAnalysis :=
  let textFragments := splitScriptDeterministically script sceneDuration
  let characterStates := initStates charData
  let (allScenes, finalStates) :=
    annotateGo (firstCharId charData) oracle textFragments 0 0 characterStates
  { characters := charData
    era := era
    visual_style_lock := visualStyle
    scenes := allScenes
    characterStates := finalStates }

/-!  ## Pipeline orchestrator (`generatePromptsV2`, generation phase)

Cancellation is a monotone flag sampled only at the loop's explicit
checkpoints; the checkpoints are numbered by a logical clock `t` in program
order.  The pause-wait sits between the two flag samples of a sequential
iteration (a cancel resolves it, so the iteration proceeds to the second
sample); an in-flight synthesis call is never interrupted — a scene's
oracle is always consumed to completion once started. -/

/-- `const PAID_PARALLEL_BATCH_SIZE = 5`. -/
def PAID_PARALLEL_BATCH_SIZE : Nat := 5

/-- How a generation run ends: normal completion, or the distinct
cooperative-cancellation outcome (a normal return of the prompts produced
so far, with `error: 'Generation cancelled'` in the UI state — never a
thrown error). -/
inductive RunResult where
  | completed (prompts : List FullScenePrompt)
  | cancelled (prompts : List FullScenePrompt)
deriving DecidableEq

/-- Placeholder for an out-of-range scene read (never reached on the
verified paths). -/
def dummySegment : SceneSegment :=
  { text := [], duration_sec := 0, characters_present := [], action_hint := [] }

/-- The free-tier sequential scene loop: per scene, a cancel checkpoint,
the pause-wait, a second cancel checkpoint, then synthesis with the
previous accepted prompt as continuity context. -/
def runFreeGo (ids : IdMap) (style : Str)
    (sceneOracle : Nat → Nat → AttemptOutcome) (cancelFlag : Nat → Bool) :
    List SceneSegment → Nat → Nat → List FullScenePrompt → RunResult
  | [], _, _, acc => .completed acc
  | seg :: rest, i, t, acc =>
    if cancelFlag t then .cancelled acc
    else if cancelFlag (t + 1) then .cancelled acc
    else
      let p := (generateScenePromptFull seg i ids style acc.getLast? (sceneOracle i)).1
      runFreeGo ids style sceneOracle cancelFlag rest (i + 1) (t + 2) (acc ++ [p])

/-- The paid-tier batch index groups: `[[0..4], [5..9], …]` up to `n`. -/
def paidBatches (n : Nat) (batchStart : Nat) : List (List Nat) :=
  if batchStart < n then
    List.range' batchStart (min (batchStart + PAID_PARALLEL_BATCH_SIZE) n - batchStart) ::
      paidBatches n (batchStart + PAID_PARALLEL_BATCH_SIZE)
  else []
termination_by n - batchStart
decreasing_by
  simp only [PAID_PARALLEL_BATCH_SIZE]
  omega

/-- The paid-tier parallel loop: per batch, a cancel checkpoint and the
pause-wait, then the whole batch synthesized against the same previous-batch
prompt, the settled results sorted back into index order, and the sparse
prompts array updated.  `store` is the JavaScript `prompts` array
(`none` = hole). -/
def runPaidGo (scenes : List SceneSegment) (ids : IdMap) (style : Str)
    (sceneOracle : Nat → Nat → AttemptOutcome) (cancelFlag : Nat → Bool) :
    List (List Nat) → Nat → List (Option FullScenePrompt) → RunResult
  | [], _, store => .completed (store.filterMap id)
  | batch :: more, t, store =>
    if cancelFlag t then .cancelled (store.filterMap id)
    else
      let batchStart := batch.headD 0
      let previousBatchPrompt :=
        if batchStart > 0 then (store.getD (batchStart - 1) none) else none
      let batchResults := batch.map (fun sceneIndex =>
        (sceneIndex,
          (generateScenePromptFull (scenes.getD sceneIndex dummySegment) sceneIndex
            ids style previousBatchPrompt (sceneOracle sceneIndex)).1))
      let sorted := batchResults.mergeSort (fun a b => a.1 ≤ b.1)
      let store' := sorted.foldl (fun st r => st.set r.1 (some r.2)) store
      runPaidGo scenes ids style sceneOracle cancelFlag more (t + 1) store'

/-- The generation phase of `generatePromptsV2` after the frozen analysis:
the post-analysis cancel checkpoint, the approval gate (which a cancel
resolves with `approved = false`), then the strategy picked by the presence
of a paid credential. -/
def generatePromptsV2 (analysis : StoryAnalysis) (approved : Bool)
    (usePaidParallel : Bool) (sceneOracle : Nat → Nat → AttemptOutcome)
    (cancelFlag : Nat → Bool) : RunResult :=
  if cancelFlag 0 then .cancelled []
  else if ¬ approved ∨ cancelFlag 1 then .cancelled []
  else if usePaidParallel then
    runPaidGo analysis.scenes analysis.characters analysis.visual_style_lock
      sceneOracle cancelFlag (paidBatches analysis.scenes.length 0) 2
      (List.replicate analysis.scenes.length none)
  else
    runFreeGo analysis.characters analysis.visual_style_lock sceneOracle cancelFlag
      analysis.scenes 0 2 []

/-!  ## Key rotator / rate limiter (`parseRetryDelay`, free-only `callGemini`)  -/

/-- Numeric value of a digit string. -/
def digitsToNat (ds : Str) : Nat :=
  ds.foldl (fun a c => 10 * a + (c.toNat - 48)) 0

/-- Attempt to match `/retry in (\d+(?:\.\d+)?)s/i` at the start of `s`,
returning the captured number of seconds.  Greedy digits leave no genuine
backtracking: after the maximal integer digit run either the fractional
branch closes with `s`, or the bare run closes with `s`, or the position
fails. -/
def tryMatchRetry (s : Str) : Option ℚ :=
  if toLower (s.take 9) = "retry in ".data then
    let after := s.drop 9
    let intDigits := after.takeWhile Char.isDigit
    if intDigits.isEmpty then none
    else
      match after.drop intDigits.length with
      | '.' :: rest2 =>
        let fracDigits := rest2.takeWhile Char.isDigit
        if ¬ fracDigits.isEmpty ∧
            ((rest2.drop fracDigits.length).head?.map Char.toLower) = some 's' then
          some ((digitsToNat intDigits : ℚ) +
            (digitsToNat fracDigits : ℚ) / (10 : ℚ) ^ fracDigits.length)
        else none
      | c :: _ =>
        if c.toLower = 's' then some (digitsToNat intDigits : ℚ) else none
      | [] => none
  else none

/-- Left-to-right scan for the first position where the retry-hint pattern
matches. -/
def findRetryHint : Str → Option ℚ
  | [] => none
  | c :: rest =>
    match tryMatchRetry (c :: rest) with
    | some q => some q
    | none => findRetryHint rest

/-- `parseRetryDelay`: the provider-supplied `retry in N s` hint in
milliseconds, with a 2-second buffer, capped at 120 s, defaulting to 60 s
when no hint parses. -/
def parseRetryDelay (errorMessage : Str) : Nat :=
  match findRetryHint errorMessage with
  | some seconds => min ((⌈seconds + 2⌉).toNat * 1000) 120000
  | none => 60000

/-- Outcome of one `makeApiCall`, at the fetch + response-check boundary:
success with text, a retryable 429/403 with its error message, or any other
thrown error. -/
inductive ApiOutcome where
  | ok (data : Str)
  | rateLimited (msg : Str)
  | err

/-- Whether an outcome is a success. -/
def ApiOutcome.isOk : ApiOutcome → Bool
  | .ok _ => true
  | _ => false

/-- Observable call/wait trace of one `callGemini` invocation. -/
inductive CallEv where
  | call (keyIndex : Nat)
  | wait (ms : Nat)
deriving DecidableEq, Repr

/-- `for (i = 0; i < len; i++) { nextIdx = (current + 1 + i) % len;
if (!tried.has(nextIdx)) { current = nextIdx; break } }` — the next untried
key, or `current` unchanged when every key was tried. -/
def findNextUntried (numKeys current : Nat) (tried : List Nat) : Nat :=
  match (List.range numKeys).find?
      (fun i => ((current + 1 + i) % numKeys) ∉ tried) with
  | some i => (current + 1 + i) % numKeys
  | none => current

/-- `Set.add`. -/
def addTried (tried : List Nat) (i : Nat) : List Nat :=
  if i ∈ tried then tried else tried ++ [i]

/-- The free-only first pass: try each untried key once (no waiting),
remembering the latest parsed retry hint.  `fuel` bounds the iterations
(`numKeys` at entry, which is exact: each iteration adds one new index).
Returns the success payload if any, the call events, the next oracle call
number, and the final `lastRetryDelay`. -/
def firstPassGo (oracle : Nat → ApiOutcome) (numKeys : Nat) :
    Nat → Nat → Nat → List Nat → Nat → Option Str × List CallEv × Nat × Nat
  | 0, callNo, _, _, lastDelay => (none, [], callNo, lastDelay)
  | fuel + 1, callNo, current, tried, lastDelay =>
    if tried.length < numKeys then
      let tried' := addTried tried current
      match oracle callNo with
      | .ok d => (some d, [.call current], callNo + 1, lastDelay)
      | .rateLimited msg =>
        let next := findNextUntried numKeys current tried'
        let r := firstPassGo oracle numKeys fuel (callNo + 1) next tried' (parseRetryDelay msg)
        (r.1, .call current :: r.2.1, r.2.2)
      | .err =>
        let next := findNextUntried numKeys current tried'
        let r := firstPassGo oracle numKeys fuel (callNo + 1) next tried' lastDelay
        (r.1, .call current :: r.2.1, r.2.2)
    else (none, [], callNo, lastDelay)

/-- The free-only mode of `callGemini` (no paid credential): a first pass
over the free keys, then a single cooldown wait of the hinted duration and
exactly one retry with the next rotated key; a hard failure (`none`) only
after that retry also fails.  `cc0` is the entry value of the proactive
round-robin call counter. -/
def callGeminiFreeOnly (numKeys cc0 : Nat) (oracle : Nat → ApiOutcome) :
    Option Str × List CallEv :=
  let current0 := cc0 % numKeys
  let fp := firstPassGo oracle numKeys numKeys 0 current0 [] 60000
  match fp.1 with
  | some d => (some d, fp.2.1)
  | none =>
    let lastRetryDelay := fp.2.2.2
    let retryIndex := (cc0 + 1) % numKeys
    let evs := fp.2.1 ++ [.wait lastRetryDelay, .call retryIndex]
    match oracle fp.2.2.1 with
    | .ok d => (some d, evs)
    | _ => (none, evs)

/-!  ## Concrete data for closed-form evaluations  -/

/-- A 3-sentence script of 8 words each (24 words total). -/
def c10Script : Str :=
  ("One two three four five six seven eight. "
    ++ "Nine ten eleven twelve thirteen fourteen fifteen sixteen. "
    ++ "A b c d e f g h.").data

/-- First sentence of `c10Script`. -/
def c10S1 : Str := "One two three four five six seven eight.".data

/-- Second sentence of `c10Script`. -/
def c10S2 : Str := "Nine ten eleven twelve thirteen fourteen fifteen sixteen.".data

/-- Third sentence of `c10Script`. -/
def c10S3 : Str := "A b c d e f g h.".data

/-- A concrete locked identity. -/
def exIdentity : CharacterIdentity :=
  { name := "Alice".data, species := "Human".data, gender := "Female".data,
    age := "30".data, body_build := "slim".data, face_shape := "oval".data,
    hair := "black".data, facial_hair := "none".data,
    skin_or_fur_color := "olive".data, eye_color := "brown".data,
    signature_feature := "scar".data, outfit_top := "tunic".data,
    outfit_bottom := "skirt".data, helmet_or_hat := "none".data,
    shoes_or_footwear := "sandals".data, accessories := "ring".data,
    texture_detail := "wool".data, material_reference := "bronze".data }

/-- A one-character identity map. -/
def exIds : IdMap := [("CHAR_A".data, exIdentity)]

/-- A concrete scene segment whose narration carries a distress keyword. -/
def exSeg : SceneSegment :=
  { text := "A man was burning alive.".data, duration_sec := 4,
    characters_present := ["CHAR_A".data], action_hint := "waves".data }

/-- The character lock the fallback builder produces for `exSeg`. -/
def exLock : CharacterLock :=
  { toCharacterIdentity := exIdentity,
    toCharacterPerformance := localPerformance "waves".data }

/-- A concrete parsed payload whose setting says `workshop`. -/
def exSanData : SceneData :=
  { character_performances := []
    background_lock := some { setting := some "a quiet workshop".data,
                              scenery := some "tools".data,
                              lighting := some "warm".data }
    camera := none
    foley_and_ambience := none
    scene_action_summary := some "he calmly waves".data }

/-- Annotation oracle reporting `CHAR_A` dead in scene 1 and alive again in
scene 2 (no flashback marker of any kind exists in the data model). -/
def c6Oracle : Nat → BatchOutcome := fun _ =>
  .ok [ { characters_present := some ["CHAR_A".data]
          action_hint := some "fights".data
          state_changes := some [{ character_id := "CHAR_A".data,
                                   new_status := "dead".data, note := some "killed".data }] },
        { characters_present := some ["CHAR_A".data]
          action_hint := some "rises".data
          state_changes := some [{ character_id := "CHAR_A".data,
                                   new_status := "alive".data, note := some "back".data }] } ]

/-- Annotation oracle that references the unknown id `CHAR_Z`. -/
def c8Oracle : Nat → BatchOutcome := fun _ =>
  .ok [{ characters_present := some ["CHAR_Z".data]
         action_hint := some "acts".data
         state_changes := none }]

/-- A minimal frozen analysis for orchestrator witnesses. -/
def exAnalysis : StoryAnalysis :=
  { characters := exIds, era := "era".data, visual_style_lock := "style".data,
    scenes := [exSeg], characterStates := initStates exIds }

/-- The in-word flag after scanning `l` from state `b`. -/
def wordState (l : Str) (b : Bool) : Bool :=
  l.foldl (fun _ c => ! isJsWs c) b

/-!  ## Lemmas: association-list lookups  -/

theorem lookupId_nil {α : Type} (k : Str) : lookupId ([] : List (Str × α)) k = none := rfl

theorem lookupId_cons {α : Type} (k k' : Str) (v : α) (m : List (Str × α)) :
    lookupId ((k', v) :: m) k = if k' = k then some v else lookupId m k := by
  by_cases h : k' = k <;> simp [lookupId, List.find?, h]

theorem lookupId_setId_self {α : Type} (m : List (Str × α)) (k : Str) (v : α) :
    lookupId (setId m k v) k = some v := by
  induction m with
  | nil => simp [setId, lookupId, List.find?]
  | cons p m ih =>
    unfold setId
    by_cases hp : p.1 = k
    · simp [hp, lookupId, List.find?]
    · rw [if_neg hp, lookupId_cons, if_neg hp]
      exact ih

theorem lookupId_setId_other {α : Type} (m : List (Str × α)) (k j : Str) (v : α)
    (hkj : k ≠ j) : lookupId (setId m k v) j = lookupId m j := by
  induction m with
  | nil => simp [setId, lookupId_cons, hkj]
  | cons p m ih =>
    unfold setId
    by_cases hp : p.1 = k
    · rw [if_pos hp, lookupId_cons, lookupId_cons, if_neg hkj, if_neg]
      rw [hp]
      exact hkj
    · rw [if_neg hp, lookupId_cons, lookupId_cons]
      by_cases hj : p.1 = j
      · rw [if_pos hj, if_pos hj]
      · rw [if_neg hj, if_neg hj]
        exact ih

/-!  ## Lemmas: character-lock soundness  -/

theorem lookupId_buildLocalLock (present : List Str) (ids : IdMap) (hint : Str)
    (c : Str) (lock : CharacterLock)
    (h : lookupId (buildLocalLock present ids hint) c = some lock) :
    lookupId ids c = some lock.toCharacterIdentity := by
  induction present with
  | nil => simp [buildLocalLock, lookupId, List.find?] at h
  | cons c' rest ih =>
    unfold buildLocalLock at h
    cases hid : lookupId ids c' with
    | none => simp only [hid] at h; exact ih h
    | some identity =>
      simp only [hid] at h
      rw [lookupId_cons] at h
      by_cases hc : c' = c
      · rw [if_pos hc] at h
        have hlock : lock = { toCharacterIdentity := identity
                              toCharacterPerformance := localPerformance hint } :=
          (Option.some.injEq _ _ ▸ h).symm
        subst hc
        rw [hlock, hid]
      · rw [if_neg hc] at h
        exact ih h

theorem lookupId_stampLock (present : List Str) (ids : IdMap)
    (perfs : List (Str × RawPerformance)) (c : Str) (lock : CharacterLock)
    (h : lookupId (stampLock present ids perfs) c = some lock) :
    lookupId ids c = some lock.toCharacterIdentity := by
  induction present with
  | nil => simp [stampLock, lookupId, List.find?] at h
  | cons c' rest ih =>
    unfold stampLock at h
    cases hid : lookupId ids c' with
    | none =>
      cases hperf : lookupId perfs c' with
      | none => simp only [hid, hperf] at h; exact ih h
      | some p => simp only [hid, hperf] at h; exact ih h
    | some identity =>
      cases hperf : lookupId perfs c' with
      | none => simp only [hid, hperf] at h; exact ih h
      | some p =>
        simp only [hid, hperf] at h
        rw [lookupId_cons] at h
        by_cases hc : c' = c
        · rw [if_pos hc] at h
          have hlock := (Option.some.injEq _ _ ▸ h).symm
          subst hc
          rw [hlock, hid]
        · rw [if_neg hc] at h
          exact ih h

/-- Every produced scene prompt is either the processed form of some parsed
payload or a locally built `[BLOCKED]`/`[SANITIZED]` scene. -/
theorem genSceneGo_cases (seg : SceneSegment) (sceneId : Str) (ids : IdMap)
    (style : Str) (prev : Option FullScenePrompt) (oracle : Nat → AttemptOutcome) :
    ∀ fuel attempt,
      (∃ d, (genSceneGo seg sceneId ids style prev oracle attempt fuel).1
          = genSceneSuccess seg sceneId ids style d) ∨
      (∃ marker,
        (genSceneGo seg sceneId ids style prev oracle attempt fuel).1
          = buildLocalScene sceneId seg seg.characters_present ids style prev marker ∧
        (marker = "[BLOCKED]".data ∨ marker = "[SANITIZED]".data)) := by
  intro fuel
  induction fuel with
  | zero =>
    intro attempt
    right
    exact ⟨"[BLOCKED]".data, rfl, Or.inl rfl⟩
  | succ fuel ih =>
    intro attempt
    unfold genSceneGo
    cases horacle : oracle attempt with
    | parsed d =>
      by_cases hs : (detectSanitizedScene seg.text
          (genSceneSuccess seg sceneId ids style d).background_lock.setting
          (genSceneSuccess seg sceneId ids style d).scene_action_summary).isSanitized
      · right
        exact ⟨"[SANITIZED]".data, by simp [hs], Or.inr rfl⟩
      · left
        exact ⟨d, by simp [hs]⟩
    | failure =>
      by_cases hf : fuel = 0
      · simpa [hf] using ih (attempt + 1)
      · simpa [hf] using ih (attempt + 1)

/-!  ## Lemmas: marker prefixes survive id-to-name replacement  -/

theorem replaceAll_cons_of_head_ne (pat rep : Str) (x : Char) (s : Str)
    (h : ∀ c0 t, pat = c0 :: t → c0 ≠ x) :
    replaceAll pat rep (x :: s) = x :: replaceAll pat rep s := by
  cases pat with
  | nil => rw [replaceAll]; simp
  | cons c0 t =>
    rw [replaceAll]
    have : ¬ (((c0 :: t).isPrefixOf (x :: s) : Bool) ∧ ¬ (c0 :: t).isEmpty) := by
      intro ⟨hpre, _⟩
      have hsplit : (c0 == x) = true ∧ t.isPrefixOf s = true := by
        simpa [List.isPrefixOf, Bool.and_eq_true] using hpre
      exact h c0 t rfl (eq_of_beq hsplit.1)
    rw [if_neg this]

theorem replaceAll_append_left (pat rep pre s : Str)
    (h : ∀ x ∈ pre, ∀ c0 t, pat = c0 :: t → c0 ≠ x) :
    replaceAll pat rep (pre ++ s) = pre ++ replaceAll pat rep s := by
  induction pre with
  | nil => simp
  | cons x pre ih =>
    rw [List.cons_append,
      replaceAll_cons_of_head_ne pat rep x (pre ++ s)
        (fun c0 t hp => h x (by simp) c0 t hp),
      ih (fun y hy c0 t hp => h y (by simp [hy]) c0 t hp),
      List.cons_append]

/-- A `CHAR_…` pattern cannot match at any offset inside a marker prefix
that has no `CH` pair and does not end in `C`, so global replacement leaves
the prefix intact. -/
theorem replaceAll_append_left_CH (t rep : Str) (pre s : Str)
    (hch : ¬ (['C', 'H'] <:+: pre)) (hlast : pre.getLast? ≠ some 'C') :
    replaceAll ('C' :: 'H' :: t) rep (pre ++ s)
      = pre ++ replaceAll ('C' :: 'H' :: t) rep s := by
  induction pre with
  | nil => simp
  | cons x pre ih =>
    rw [List.cons_append, replaceAll]
    have hcond : ¬ ((('C' :: 'H' :: t).isPrefixOf (x :: (pre ++ s)) : Bool)
        ∧ ¬ ('C' :: 'H' :: t).isEmpty) := by
      intro ⟨hpre, _⟩
      have hx : ('C' == x) = true ∧ ('H' :: t).isPrefixOf (pre ++ s) = true := by
        simpa [List.isPrefixOf, Bool.and_eq_true] using hpre
      have hxC : x = 'C' := (eq_of_beq hx.1).symm
      cases pre with
      | nil =>
        exact hlast (by simp [hxC])
      | cons y pre' =>
        have hy : ('H' == y) = true ∧ t.isPrefixOf (pre' ++ s) = true := by
          simpa [List.isPrefixOf, Bool.and_eq_true] using hx.2
        have hyH : y = 'H' := (eq_of_beq hy.1).symm
        exact hch ⟨[], pre', by simp [hxC, hyH]⟩
    rw [if_neg hcond]
    congr 1
    apply ih
    · intro hinf
      exact hch (hinf.trans (List.suffix_cons x pre).isInfix)
    · intro hl
      cases pre with
      | nil => simp at hl
      | cons y pre' =>
        refine hlast ?_
        rw [List.getLast?_cons_cons]
        exact hl

theorem replaceCharIdsWithNames_append_left (ids : IdMap) (pre s : Str)
    (h : ∀ p ∈ ids, ∃ t, p.1 = 'C' :: 'H' :: t)
    (hch : ¬ (['C', 'H'] <:+: pre)) (hlast : pre.getLast? ≠ some 'C') :
    replaceCharIdsWithNames (pre ++ s) ids = pre ++ replaceCharIdsWithNames s ids := by
  induction ids generalizing s with
  | nil => rfl
  | cons p ids ih =>
    unfold replaceCharIdsWithNames
    rw [List.foldl_cons, List.foldl_cons]
    by_cases hname : p.2.name.isEmpty
    · simp only [hname, if_pos]
      exact ih s (fun q hq => h q (by simp [hq]))
    · simp only [hname, if_neg, Bool.false_eq_true, not_false_eq_true]
      obtain ⟨t, hp⟩ := h p (by simp)
      rw [hp, replaceAll_append_left_CH t p.2.name pre s hch hlast]
      exact ih (replaceAll ('C' :: 'H' :: t) p.2.name s) (fun q hq => h q (by simp [hq]))

/-- Soundness of every produced `character_lock`: each bound lock carries
exactly the locked identity of its id from the frozen map. -/
theorem generate_character_lock_sound (seg : SceneSegment) (i : Nat) (ids : IdMap)
    (style : Str) (prev : Option FullScenePrompt) (oracle : Nat → AttemptOutcome)
    (c : Str) (lock : CharacterLock)
    (h : lookupId ((generateScenePromptFull seg i ids style prev oracle).1).character_lock c
      = some lock) :
    lookupId ids c = some lock.toCharacterIdentity := by
  rcases genSceneGo_cases seg (sceneIdOf i) ids style prev oracle (MAX_RETRIES + 1) 0 with
    ⟨d, hres⟩ | ⟨marker, hres, _⟩
  · rw [generateScenePromptFull, hres] at h
    have hcl : (genSceneSuccess seg (sceneIdOf i) ids style d).character_lock
        = stampLock seg.characters_present ids d.character_performances := rfl
    rw [hcl] at h
    exact lookupId_stampLock _ _ _ _ _ h
  · rw [generateScenePromptFull, hres] at h
    have hcl : (buildLocalScene (sceneIdOf i) seg seg.characters_present ids style
          prev marker).character_lock
        = buildLocalLock seg.characters_present ids
            (replaceCharIdsWithNames
              (if seg.action_hint.isEmpty then "Character performs scene action".data
               else seg.action_hint) ids) := rfl
    rw [hcl] at h
    exact lookupId_buildLocalLock _ _ _ _ _ h

/-!  ## Claim theorems  -/

/-- **C1.** Within a run, for every produced `FullScenePrompt` and every
character id bound in its `character_lock`, the identity half of the lock
(all 18 fields: name, species, gender, age, body build, face shape, hair,
facial hair, skin/fur color, eye color, signature feature, outfit top,
outfit bottom, helmet/hat, footwear, accessories, texture detail, material
reference) is exactly the locked `CharacterIdentity` stored for that id in
the frozen identity map — hence byte-identical across every scene the
character appears in; only the performance half varies per scene. -/
theorem c1_character_identity_byte_identical :
    (∀ (seg : SceneSegment) (i : Nat) (ids : IdMap) (style : Str)
       (prev : Option FullScenePrompt) (oracle : Nat → AttemptOutcome)
       (c : Str) (lock : CharacterLock),
       lookupId ((generateScenePromptFull seg i ids style prev oracle).1).character_lock c
         = some lock →
       lookupId ids c = some lock.toCharacterIdentity) ∧
    (∀ (seg seg' : SceneSegment) (i i' : Nat) (ids : IdMap) (style style' : Str)
       (prev prev' : Option FullScenePrompt) (oracle oracle' : Nat → AttemptOutcome)
       (c : Str) (lock lock' : CharacterLock),
       lookupId ((generateScenePromptFull seg i ids style prev oracle).1).character_lock c
         = some lock →
       lookupId ((generateScenePromptFull seg' i' ids style' prev' oracle').1).character_lock c
         = some lock' →
       lock.toCharacterIdentity = lock'.toCharacterIdentity) := by
  refine ⟨fun seg i ids style prev oracle c lock h =>
    generate_character_lock_sound seg i ids style prev oracle c lock h, ?_⟩
  intro seg seg' i i' ids style style' prev prev' oracle oracle' c lock lock' h h'
  have e1 := generate_character_lock_sound seg i ids style prev oracle c lock h
  have e2 := generate_character_lock_sound seg' i' ids style' prev' oracle' c lock' h'
  rw [e1] at e2
  exact (Option.some.injEq _ _ ▸ e2)

/-!  ### Concrete data for witnesses and counterexamples  -/

unseal replaceAll in
/-- Witness for C1 at a concrete scene: the lock bound to `CHAR_A` in the
produced prompt carries exactly the locked identity from the map. -/
theorem c1_character_identity_byte_identical_witness :
    lookupId ((generateScenePromptFull exSeg 0 exIds "style".data none
        (fun _ => .failure)).1).character_lock "CHAR_A".data = some exLock
    ∧ lookupId exIds "CHAR_A".data = some exLock.toCharacterIdentity :=
  ⟨by decide,
   c1_character_identity_byte_identical.1 exSeg 0 exIds "style".data none
     (fun _ => .failure) "CHAR_A".data exLock (by decide)⟩

/-!  ### Sanitization (C4) and blocked-scene fallback (C5)  -/

theorem genSceneGo_fst_failure (seg : SceneSegment) (sceneId : Str) (ids : IdMap)
    (style : Str) (prev : Option FullScenePrompt) (oracle : Nat → AttemptOutcome)
    (attempt fuel : Nat) (hfail : oracle attempt = .failure) :
    (genSceneGo seg sceneId ids style prev oracle attempt (fuel + 1)).1
      = (genSceneGo seg sceneId ids style prev oracle (attempt + 1) fuel).1 := by
  conv_lhs => rw [genSceneGo]
  simp only [hfail]
  by_cases hf : fuel = 0 <;> simp [hf]

theorem genSceneGo_parsed_sanitized (seg : SceneSegment) (sceneId : Str) (ids : IdMap)
    (style : Str) (prev : Option FullScenePrompt) (oracle : Nat → AttemptOutcome)
    (attempt fuel : Nat) (d : SceneData) (hparse : oracle attempt = .parsed d)
    (hsan : (detectSanitizedScene seg.text
        (genSceneSuccess seg sceneId ids style d).background_lock.setting
        (genSceneSuccess seg sceneId ids style d).scene_action_summary).isSanitized = true) :
    (genSceneGo seg sceneId ids style prev oracle attempt (fuel + 1)).1
      = buildLocalScene sceneId seg seg.characters_present ids style prev
          "[SANITIZED]".data := by
  unfold genSceneGo
  simp only [hparse, hsan, if_pos]

/-- The fallback builder's action summary keeps the marker as a literal
prefix whenever every character id starts with `CH` (as the `CHAR_A`,
`CHAR_B`, … ids do) and the marker has no `CH` pair and does not end in
`C`. -/
theorem buildLocalScene_summary_marked (sceneId : Str) (seg : SceneSegment)
    (present : List Str) (ids : IdMap) (style : Str) (prev : Option FullScenePrompt)
    (marker pre : Str) (hsp : marker ++ " ".data = pre)
    (hIds : ∀ p ∈ ids, ∃ t, p.1 = 'C' :: 'H' :: t)
    (hch : ¬ (['C', 'H'] <:+: pre)) (hlast : pre.getLast? ≠ some 'C') :
    ∃ rest, (buildLocalScene sceneId seg present ids style prev marker).scene_action_summary
      = pre ++ rest := by
  have hsum : (buildLocalScene sceneId seg present ids style prev marker).scene_action_summary
      = replaceCharIdsWithNames
          (marker ++ " ".data ++
            (if seg.action_hint.isEmpty then "Scene action - requires manual review".data
             else seg.action_hint)) ids := rfl
  rw [hsum, hsp, replaceCharIdsWithNames_append_left ids pre _ hIds hch hlast]
  exact ⟨_, rfl⟩

/-- **C4.** When a scene's successfully parsed remote response is flagged by
the sanitization detector (distress vocabulary in the narration but a
safe-scene keyword in the processed background setting or action summary),
the remote output is discarded in its entirety: the returned prompt is the
locally built scene with the `[SANITIZED]` marker, and its action summary
carries `[SANITIZED] ` as a literal prefix — the raw remote data is never
accepted. -/
theorem c4_sanitized_output_discarded (seg : SceneSegment) (i : Nat) (ids : IdMap)
    (style : Str) (prev : Option FullScenePrompt) (oracle : Nat → AttemptOutcome)
    (a : Nat) (d : SceneData)
    (ha : a ≤ MAX_RETRIES)
    (hbefore : ∀ k, k < a → oracle k = .failure)
    (hparse : oracle a = .parsed d)
    (hsan : (detectSanitizedScene seg.text
        (genSceneSuccess seg (sceneIdOf i) ids style d).background_lock.setting
        (genSceneSuccess seg (sceneIdOf i) ids style d).scene_action_summary).isSanitized
      = true)
    (hIds : ∀ p ∈ ids, ∃ t, p.1 = 'C' :: 'H' :: t) :
    (generateScenePromptFull seg i ids style prev oracle).1
      = buildLocalScene (sceneIdOf i) seg seg.characters_present ids style prev
          "[SANITIZED]".data
    ∧ ∃ rest, (generateScenePromptFull seg i ids style prev oracle).1.scene_action_summary
        = "[SANITIZED] ".data ++ rest := by
  have hMR : MAX_RETRIES = 2 := rfl
  have hres : (generateScenePromptFull seg i ids style prev oracle).1
      = buildLocalScene (sceneIdOf i) seg seg.characters_present ids style prev
          "[SANITIZED]".data := by
    rw [hMR] at ha
    rw [generateScenePromptFull]
    have ha3 : a = 0 ∨ a = 1 ∨ a = 2 := by omega
    rcases ha3 with ha0 | ha1 | ha2
    · subst ha0
      exact genSceneGo_parsed_sanitized seg (sceneIdOf i) ids style prev oracle 0 2 d
        hparse hsan
    · subst ha1
      rw [show MAX_RETRIES + 1 = 2 + 1 from rfl,
        genSceneGo_fst_failure seg (sceneIdOf i) ids style prev oracle 0 2
          (hbefore 0 (by omega))]
      exact genSceneGo_parsed_sanitized seg (sceneIdOf i) ids style prev oracle 1 1 d
        hparse hsan
    · subst ha2
      rw [show MAX_RETRIES + 1 = 2 + 1 from rfl,
        genSceneGo_fst_failure seg (sceneIdOf i) ids style prev oracle 0 2
          (hbefore 0 (by omega)),
        genSceneGo_fst_failure seg (sceneIdOf i) ids style prev oracle 1 1
          (hbefore 1 (by omega))]
      exact genSceneGo_parsed_sanitized seg (sceneIdOf i) ids style prev oracle 2 0 d
        hparse hsan
  refine ⟨hres, ?_⟩
  rw [hres]
  exact buildLocalScene_summary_marked (sceneIdOf i) seg seg.characters_present ids style
    prev "[SANITIZED]".data "[SANITIZED] ".data (by decide) hIds (by decide) (by decide)

unseal replaceAll in
/-- Witness for C4: narration `burning` + synthesized `workshop` setting is
flagged and replaced by the `[SANITIZED]`-marked local build. -/
theorem c4_sanitized_output_discarded_witness :
    (0 ≤ MAX_RETRIES
      ∧ (detectSanitizedScene exSeg.text
          (genSceneSuccess exSeg (sceneIdOf 0) exIds "style".data exSanData).background_lock.setting
          (genSceneSuccess exSeg (sceneIdOf 0) exIds "style".data exSanData).scene_action_summary).isSanitized
        = true)
    ∧ ((generateScenePromptFull exSeg 0 exIds "style".data none
          (fun _ => .parsed exSanData)).1
        = buildLocalScene (sceneIdOf 0) exSeg exSeg.characters_present exIds "style".data
            none "[SANITIZED]".data
      ∧ ∃ rest, (generateScenePromptFull exSeg 0 exIds "style".data none
          (fun _ => .parsed exSanData)).1.scene_action_summary
            = "[SANITIZED] ".data ++ rest) :=
  ⟨⟨by decide, by decide⟩,
   c4_sanitized_output_discarded exSeg 0 exIds "style".data none
     (fun _ => .parsed exSanData) 0 exSanData (by decide)
     (fun k hk => absurd hk (by omega)) rfl (by decide)
     (by intro p hp
         simp only [exIds, List.mem_singleton] at hp
         exact ⟨"AR_A".data, by rw [hp]⟩)⟩

/-- **C5.** Synthesis retries a failed remote attempt up to 2 times with
strictly increasing back-off (3 s then 6 s); once retries are exhausted the
scene never escalates to a run-level failure: the returned prompt is the
locally built scene with the `[BLOCKED]` marker whose background and camera
equal those of the immediately preceding accepted scene (generic defaults
when there is none), and whose action summary carries `[BLOCKED] ` as a
literal prefix. -/
theorem c5_blocked_local_fallback (seg : SceneSegment) (i : Nat) (ids : IdMap)
    (style : Str) (prev : Option FullScenePrompt) (oracle : Nat → AttemptOutcome)
    (h0 : oracle 0 = .failure) (h1 : oracle 1 = .failure) (h2 : oracle 2 = .failure)
    (hIds : ∀ p ∈ ids, ∃ t, p.1 = 'C' :: 'H' :: t) :
    generateScenePromptFull seg i ids style prev oracle
      = (buildLocalScene (sceneIdOf i) seg seg.characters_present ids style prev
          "[BLOCKED]".data, [3000, 6000])
    ∧ (generateScenePromptFull seg i ids style prev oracle).1.background_lock
        = (prev.map (·.background_lock)).getD defaultBackground
    ∧ (generateScenePromptFull seg i ids style prev oracle).1.camera
        = (prev.map (·.camera)).getD defaultCamera
    ∧ List.Chain' (· < ·) (generateScenePromptFull seg i ids style prev oracle).2
    ∧ ∃ rest, (generateScenePromptFull seg i ids style prev oracle).1.scene_action_summary
        = "[BLOCKED] ".data ++ rest := by
  have hres : generateScenePromptFull seg i ids style prev oracle
      = (buildLocalScene (sceneIdOf i) seg seg.characters_present ids style prev
          "[BLOCKED]".data, [3000, 6000]) := by
    show genSceneGo seg (sceneIdOf i) ids style prev oracle 0 (MAX_RETRIES + 1) = _
    rw [show MAX_RETRIES + 1 = 3 from rfl]
    unfold genSceneGo
    simp only [h0]
    unfold genSceneGo
    simp only [h1]
    unfold genSceneGo
    simp only [h2]
    unfold genSceneGo
    norm_num
  refine ⟨hres, by rw [hres]; rfl, by rw [hres]; rfl,
    by rw [hres]
       show List.Chain' (· < ·) [3000, 6000]
       exact List.chain'_cons.mpr ⟨by norm_num, List.chain'_singleton _⟩, ?_⟩
  rw [hres]
  exact buildLocalScene_summary_marked (sceneIdOf i) seg seg.characters_present ids style
    prev "[BLOCKED]".data "[BLOCKED] ".data (by decide) hIds (by decide) (by decide)

unseal replaceAll in
/-- Witness for C5 at a concrete scene with an always-failing oracle (and a
previous accepted scene to inherit from). -/
theorem c5_blocked_local_fallback_witness :
    generateScenePromptFull exSeg 1 exIds "style".data
        (some (buildLocalScene (sceneIdOf 0) exSeg ["CHAR_A".data] exIds "style".data
          none "[BLOCKED]".data))
        (fun _ => .failure)
      = (buildLocalScene (sceneIdOf 1) exSeg exSeg.characters_present exIds "style".data
          (some (buildLocalScene (sceneIdOf 0) exSeg ["CHAR_A".data] exIds "style".data
            none "[BLOCKED]".data)) "[BLOCKED]".data, [3000, 6000])
    ∧ (generateScenePromptFull exSeg 1 exIds "style".data
        (some (buildLocalScene (sceneIdOf 0) exSeg ["CHAR_A".data] exIds "style".data
          none "[BLOCKED]".data))
        (fun _ => .failure)).1.background_lock
      = defaultBackground :=
  ⟨(c5_blocked_local_fallback exSeg 1 exIds "style".data
      (some (buildLocalScene (sceneIdOf 0) exSeg ["CHAR_A".data] exIds "style".data
        none "[BLOCKED]".data))
      (fun _ => .failure) rfl rfl rfl
      (by intro p hp
          simp only [exIds, List.mem_singleton] at hp
          exact ⟨"AR_A".data, by rw [hp]⟩)).1,
   by decide⟩

/-!  ### Character state transitions (C6)  -/

/-- **C6 counterexample.** The state update is an unconditional overwrite:
`CHAR_A` is set to `dead` at scene 0, yet the scene-1 annotation of the very
same run rolls the frozen analysis's entry back to `alive` — there is no
flashback override in the update path, refuting the claimed monotonicity. -/
theorem c6_state_rollback_counterexample :
    lookupId (applyStateChanges (initStates exIds) 0
        [{ character_id := "CHAR_A".data, new_status := "dead".data,
           note := some "killed".data }]) "CHAR_A".data
      = some { status := "dead".data, changedAtScene := 0, note := some "killed".data }
    ∧ lookupId (analyzeStoryDeep "A b c. D e f.".data 1 exIds "era".data "style".data
          c6Oracle).characterStates "CHAR_A".data
        = some { status := "alive".data, changedAtScene := 1, note := some "back".data } := by
  constructor
  · decide
  · simp only [analyzeStoryDeep, splitScriptDeterministically]
    norm_num +decide [sentences, sentSplit, sentSplitGo, isSentPunct, isJsWs, jsTrim,
      splitGo, jsWordCount, splitWs, splitWsGo, WORDS_PER_SECOND, WPM, fragmentDuration,
      jsRound, annotateGo, annotateParsedBatch, applyStateChanges, initStates,
      firstCharId, setId, lookupId, BATCH_SIZE, List.find?, c6Oracle]

/-- **C6 (amended).** Character state entries are *not* monotone: each valid
state change (non-empty id and status) reported for a scene unconditionally
overwrites the character's entry with that scene's status and index — a
later `alive` replaces an earlier `dead`, there being no flashback
override.  The entry after one scene's changes is exactly the last valid
change naming the character, or the prior entry when none does. -/
theorem c6_state_last_write_wins (st : StateMap) (i : Nat) (chs : List StateChange)
    (c : Str) :
    lookupId (applyStateChanges st i chs) c
      = chs.foldl
          (fun acc ch =>
            if ¬ ch.character_id.isEmpty ∧ ¬ ch.new_status.isEmpty ∧ ch.character_id = c
            then some { status := ch.new_status, changedAtScene := i, note := ch.note }
            else acc)
          (lookupId st c) := by
  induction chs generalizing st with
  | nil => rfl
  | cons ch chs ih =>
    unfold applyStateChanges
    rw [List.foldl_cons, List.foldl_cons]
    have hstep :
        lookupId (if ¬ ch.character_id.isEmpty ∧ ¬ ch.new_status.isEmpty then
            setId st ch.character_id
              { status := ch.new_status, changedAtScene := i, note := ch.note }
          else st) c
        = (if ¬ ch.character_id.isEmpty ∧ ¬ ch.new_status.isEmpty ∧ ch.character_id = c
           then some { status := ch.new_status, changedAtScene := i, note := ch.note }
           else lookupId st c) := by
      by_cases hv : ¬ ch.character_id.isEmpty ∧ ¬ ch.new_status.isEmpty
      · rw [if_pos hv]
        by_cases hc : ch.character_id = c
        · rw [if_pos ⟨hv.1, hv.2, hc⟩, hc]
          exact lookupId_setId_self st c _
        · rw [if_neg (fun h => hc h.2.2), lookupId_setId_other st _ c _ hc]
      · rw [if_neg hv, if_neg (fun h => hv ⟨h.1, h.2.1⟩)]
    have := ih (if ¬ ch.character_id.isEmpty ∧ ¬ ch.new_status.isEmpty then
        setId st ch.character_id
          { status := ch.new_status, changedAtScene := i, note := ch.note }
      else st)
    rw [← hstep]
    exact this

/-!  ### Unknown character ids (C8)  -/

/-- **C8 counterexample.** An annotation referencing the unknown id
`CHAR_Z` is *not* rejected or ignored: it is stored verbatim in the frozen
`StoryAnalysis`'s scene list although the identity map has no such key. -/
theorem c8_unknown_id_propagates_counterexample :
    ((analyzeStoryDeep "A b c.".data 1 exIds "era".data "style".data c8Oracle).scenes.map
        (·.characters_present)) = [["CHAR_Z".data]]
    ∧ lookupId exIds "CHAR_Z".data = none := by
  constructor
  · simp only [analyzeStoryDeep, splitScriptDeterministically]
    norm_num +decide [sentences, sentSplit, sentSplitGo, isSentPunct, isJsWs, jsTrim,
      splitGo, jsWordCount, splitWs, splitWsGo, WORDS_PER_SECOND, WPM, fragmentDuration,
      jsRound, annotateGo, annotateParsedBatch, applyStateChanges, initStates,
      firstCharId, setId, lookupId, BATCH_SIZE, List.find?, c8Oracle]
  · decide

/-- **C8 (amended).** Unknown character ids survive into the frozen
`StoryAnalysis` (see the counterexample), but synthesis ignores them: every
id bound in a produced prompt's `character_lock` exists in the locked
identity map, an unknown id contributing no entry. -/
theorem c8_unknown_ids_ignored_in_prompts (seg : SceneSegment) (i : Nat) (ids : IdMap)
    (style : Str) (prev : Option FullScenePrompt) (oracle : Nat → AttemptOutcome)
    (c : Str)
    (hc : c ∈ ((generateScenePromptFull seg i ids style prev oracle).1).character_lock.map
        Prod.fst) :
    (lookupId ids c).isSome = true := by
  obtain ⟨p, hp, hfst⟩ := List.mem_map.mp hc
  have hfind : (((generateScenePromptFull seg i ids style prev oracle).1).character_lock.find?
      (fun q => q.1 = c)).isSome := by
    rw [List.find?_isSome]
    exact ⟨p, hp, by simp [hfst]⟩
  obtain ⟨q, hq⟩ := Option.isSome_iff_exists.mp hfind
  have hlook : lookupId ((generateScenePromptFull seg i ids style prev oracle).1).character_lock c
      = some q.2 := by
    simp [lookupId, hq]
  rw [generate_character_lock_sound seg i ids style prev oracle c q.2 hlook]
  rfl

unseal replaceAll in
/-- Witness for the amended C8: a scene listing both `CHAR_A` and the
unknown `CHAR_Z` produces a prompt whose lock binds only `CHAR_A`. -/
theorem c8_unknown_ids_ignored_in_prompts_witness :
    "CHAR_A".data ∈ ((generateScenePromptFull
        { text := "A b.".data, duration_sec := 4,
          characters_present := ["CHAR_A".data, "CHAR_Z".data],
          action_hint := "acts".data }
        0 exIds "style".data none (fun _ => .failure)).1).character_lock.map Prod.fst
    ∧ (lookupId exIds "CHAR_A".data).isSome = true :=
  ⟨by decide,
   c8_unknown_ids_ignored_in_prompts
     { text := "A b.".data, duration_sec := 4,
       characters_present := ["CHAR_A".data, "CHAR_Z".data],
       action_hint := "acts".data }
     0 exIds "style".data none (fun _ => .failure) "CHAR_A".data (by decide)⟩

/-!  ### Prompt count and ordering (C3)  -/

/-- Every produced prompt is stamped with the scene id of its index, on
every path (success, sanitized, blocked). -/
theorem generate_scene_id (seg : SceneSegment) (i : Nat) (ids : IdMap) (style : Str)
    (prev : Option FullScenePrompt) (oracle : Nat → AttemptOutcome) :
    ((generateScenePromptFull seg i ids style prev oracle).1).scene_id = sceneIdOf i := by
  rcases genSceneGo_cases seg (sceneIdOf i) ids style prev oracle (MAX_RETRIES + 1) 0 with
    ⟨d, hres⟩ | ⟨marker, hres, _⟩ <;> rw [generateScenePromptFull, hres] <;> rfl

/-- The free-tier sequential loop, never cancelled, completes with one
prompt per remaining scene, in segment order. -/
theorem runFree_noflag_spec (ids : IdMap) (style : Str)
    (sceneOracle : Nat → Nat → AttemptOutcome) :
    ∀ (scenes : List SceneSegment) (i t : Nat) (acc : List FullScenePrompt),
      ∃ rest,
        runFreeGo ids style sceneOracle (fun _ => false) scenes i t acc
          = .completed (acc ++ rest)
        ∧ rest.map FullScenePrompt.scene_id = (List.range' i scenes.length).map sceneIdOf := by
  intro scenes
  induction scenes with
  | nil => exact fun i t acc => ⟨[], by simp [runFreeGo], by simp⟩
  | cons seg ss ih =>
    intro i t acc
    obtain ⟨rest, hrun, hmap⟩ := ih (i + 1) (t + 2)
      (acc ++ [(generateScenePromptFull seg i ids style acc.getLast? (sceneOracle i)).1])
    refine ⟨(generateScenePromptFull seg i ids style acc.getLast? (sceneOracle i)).1 :: rest,
      ?_, ?_⟩
    · rw [runFreeGo]
      simp only [Bool.false_eq_true, if_false]
      rw [hrun, List.append_assoc]
      rfl
    · rw [List.length_cons, List.range'_succ, List.map_cons, List.map_cons, hmap,
        generate_scene_id]

/-- Setting the element just past a prefix writes into the suffix's head. -/
theorem set_append_length {α : Type} (l1 l2 : List α) (v : α) :
    (l1 ++ l2).set l1.length v = l1 ++ l2.set 0 v := by
  induction l1 with
  | nil => simp
  | cons x l1 ih => simp [List.set, ih]

/-- Writing a batch of results at indices `m, m+1, …` into a store whose
first `m` cells are filled extends the dense prefix. -/
theorem foldl_set_range' (g : Nat → FullScenePrompt) :
    ∀ (cnt m : Nat) (ps : List FullScenePrompt) (n : Nat),
      ps.length = m → m + cnt ≤ n →
      (((List.range' m cnt).map (fun j => (j, g j))).foldl
          (fun st r => st.set r.1 (some r.2))
          (ps.map some ++ List.replicate (n - m) none))
        = (ps ++ (List.range' m cnt).map g).map some
            ++ List.replicate (n - (m + cnt)) none := by
  intro cnt
  induction cnt with
  | zero => intro m ps n hlen _; simp
  | succ cnt ih =>
    intro m ps n hlen hle
    rw [List.range'_succ, List.map_cons, List.foldl_cons]
    have hrep : List.replicate (n - m) (none : Option FullScenePrompt)
        = none :: List.replicate (n - (m + 1)) none := by
      have h1 : n - m = (n - (m + 1)) + 1 := by omega
      rw [h1, List.replicate_succ]
    have hset : (ps.map some ++ List.replicate (n - m) (none : Option FullScenePrompt)).set
          m (some (g m))
        = (ps ++ [g m]).map some ++ List.replicate (n - (m + 1)) none := by
      have hm : m = (ps.map some).length := by rw [List.length_map, hlen]
      rw [hrep, hm, set_append_length, List.map_append, List.append_assoc]
      rfl
    show (((List.range' (m + 1) cnt).map (fun j => (j, g j))).foldl
        (fun st r => st.set r.1 (some r.2))
        ((ps.map some ++ List.replicate (n - m) none).set m (some (g m)))) = _
    rw [hset, ih (m + 1) (ps ++ [g m]) n (by simp [hlen]) (by omega)]
    have harith : m + 1 + cnt = m + (cnt + 1) := by omega
    rw [List.append_assoc, harith, List.map_cons]
    rfl

/-- The paid-tier parallel loop, never cancelled, fills the remaining store
cells with one prompt per scene, reassembled in segment order. -/
theorem runPaid_noflag_spec (scenes : List SceneSegment) (ids : IdMap) (style : Str)
    (sceneOracle : Nat → Nat → AttemptOutcome) (n : Nat) :
    ∀ (K m t : Nat) (ps : List FullScenePrompt),
      n ≤ m + K → ps.length = min m n →
      ∃ rest,
        runPaidGo scenes ids style sceneOracle (fun _ => false) (paidBatches n m) t
            (ps.map some ++ List.replicate (n - ps.length) none)
          = .completed (ps ++ rest)
        ∧ rest.map FullScenePrompt.scene_id
            = (List.range' ps.length (n - ps.length)).map sceneIdOf := by
  intro K
  induction K with
  | zero =>
    intro m t ps hK hlen
    have hmn : ¬ m < n := by omega
    have hps : ps.length = n := by
      rw [hlen]; omega
    refine ⟨[], ?_, by simp [hps]⟩
    rw [paidBatches, if_neg hmn, runPaidGo, hps]
    simp
  | succ K ih =>
    intro m t ps hK hlen
    by_cases hm : m < n
    · have hps : ps.length = m := by rw [hlen]; omega
      have hlen1 : min (m + PAID_PARALLEL_BATCH_SIZE) n - m
          = (min (m + PAID_PARALLEL_BATCH_SIZE) n - m - 1) + 1 := by
        simp only [PAID_PARALLEL_BATCH_SIZE]
        omega
      rw [paidBatches, if_pos hm, runPaidGo]
      simp only [Bool.false_eq_true, if_false]
      have hsorted :
          ∀ (f : Nat → FullScenePrompt),
            ((List.range' m (min (m + PAID_PARALLEL_BATCH_SIZE) n - m)).map
                (fun i => (i, f i))).mergeSort (fun a b => a.1 ≤ b.1)
              = (List.range' m (min (m + PAID_PARALLEL_BATCH_SIZE) n - m)).map
                  (fun i => (i, f i)) := by
        intro f
        apply List.mergeSort_of_sorted
        have hpw : (List.range' m (min (m + PAID_PARALLEL_BATCH_SIZE) n - m)).Pairwise
            (· < ·) := List.pairwise_lt_range' _ _
        simpa using List.Pairwise.map _ (fun a b (h : a < b) => by simpa using le_of_lt h) hpw
      rw [hsorted]
      rw [show n - ps.length = n - m from by rw [hps]]
      rw [foldl_set_range' _ _ _ _ _ hps (by simp only [PAID_PARALLEL_BATCH_SIZE]; omega)]
      have harg : n - (m + (min (m + PAID_PARALLEL_BATCH_SIZE) n - m))
          = n - (ps ++ (List.range' m (min (m + PAID_PARALLEL_BATCH_SIZE) n - m)).map
              (fun i => (generateScenePromptFull (scenes.getD i dummySegment) i ids style
                (if (List.range' m (min (m + PAID_PARALLEL_BATCH_SIZE) n - m)).headD 0 > 0 then
                  (ps.map some ++ List.replicate (n - m) none).getD
                    ((List.range' m (min (m + PAID_PARALLEL_BATCH_SIZE) n - m)).headD 0 - 1) none
                 else none)
                (sceneOracle i)).1)).length := by
        rw [List.length_append, List.length_map, List.length_range', hps]
      obtain ⟨rest2, hrun2, hmap2⟩ := ih (m + PAID_PARALLEL_BATCH_SIZE) (t + 1)
        (ps ++ (List.range' m (min (m + PAID_PARALLEL_BATCH_SIZE) n - m)).map
          (fun i => (generateScenePromptFull (scenes.getD i dummySegment) i ids style
            (if (List.range' m (min (m + PAID_PARALLEL_BATCH_SIZE) n - m)).headD 0 > 0 then
              (ps.map some ++ List.replicate (n - m) none).getD
                ((List.range' m (min (m + PAID_PARALLEL_BATCH_SIZE) n - m)).headD 0 - 1) none
             else none)
            (sceneOracle i)).1))
        (by simp only [PAID_PARALLEL_BATCH_SIZE] at *; omega)
        (by rw [List.length_append, List.length_map, List.length_range', hps]
            simp only [PAID_PARALLEL_BATCH_SIZE] at *
            omega)
      rw [harg]
      rw [hrun2]
      refine ⟨(List.range' m (min (m + PAID_PARALLEL_BATCH_SIZE) n - m)).map
          (fun i => (generateScenePromptFull (scenes.getD i dummySegment) i ids style
            (if (List.range' m (min (m + PAID_PARALLEL_BATCH_SIZE) n - m)).headD 0 > 0 then
              (ps.map some ++ List.replicate (n - m) none).getD
                ((List.range' m (min (m + PAID_PARALLEL_BATCH_SIZE) n - m)).headD 0 - 1) none
             else none)
            (sceneOracle i)).1) ++ rest2, by rw [List.append_assoc], ?_⟩
      rw [List.map_append, hmap2, List.length_append, List.length_map, List.length_range',
        hps]
      have hmapbatch :
          ((List.range' m (min (m + PAID_PARALLEL_BATCH_SIZE) n - m)).map
            (fun i => (generateScenePromptFull (scenes.getD i dummySegment) i ids style
              (if (List.range' m (min (m + PAID_PARALLEL_BATCH_SIZE) n - m)).headD 0 > 0 then
                (ps.map some ++ List.replicate (n - m) none).getD
                  ((List.range' m (min (m + PAID_PARALLEL_BATCH_SIZE) n - m)).headD 0 - 1) none
               else none)
              (sceneOracle i)).1)).map FullScenePrompt.scene_id
          = (List.range' m (min (m + PAID_PARALLEL_BATCH_SIZE) n - m)).map sceneIdOf := by
        rw [List.map_map]
        exact List.map_congr_left (fun i _ => generate_scene_id _ _ _ _ _ _)
      rw [hmapbatch, ← List.map_append, List.range'_append_1]
      congr 2
      simp only [PAID_PARALLEL_BATCH_SIZE] at *
      omega
    · have hps : ps.length = n := by rw [hlen]; omega
      refine ⟨[], ?_, by simp [hps]⟩
      rw [paidBatches, if_neg hm, runPaidGo, hps]
      simp

/-- **C3.** For every run that completes (both the sequential free-tier
strategy and the parallel-batched paid-tier strategy, with batch results
reassembled into segment order), the number of generated prompts equals the
number of scenes in the frozen `StoryAnalysis`, and the prompt at position
`i` carries scene id `S(i+1)` — it was synthesized from segment `i`. -/
theorem c3_prompt_count_and_order (analysis : StoryAnalysis) (usePaid : Bool)
    (sceneOracle : Nat → Nat → AttemptOutcome) :
    ∃ ps, generatePromptsV2 analysis true usePaid sceneOracle (fun _ => false)
        = .completed ps
      ∧ ps.length = analysis.scenes.length
      ∧ ∀ j (hj : j < ps.length), (ps.get ⟨j, hj⟩).scene_id = sceneIdOf j := by
  have hmain : ∃ ps, generatePromptsV2 analysis true usePaid sceneOracle (fun _ => false)
      = .completed ps
      ∧ ps.map FullScenePrompt.scene_id
          = (List.range' 0 analysis.scenes.length).map sceneIdOf := by
    rw [generatePromptsV2]
    simp only [Bool.false_eq_true, if_false, not_true, false_or]
    cases usePaid with
    | false =>
      simp only [Bool.false_eq_true, if_false]
      obtain ⟨rest, hrun, hmap⟩ := runFree_noflag_spec analysis.characters
        analysis.visual_style_lock sceneOracle analysis.scenes 0 2 []
      exact ⟨rest, by rw [hrun]; rfl, hmap⟩
    | true =>
      simp only [if_true]
      obtain ⟨rest, hrun, hmap⟩ := runPaid_noflag_spec analysis.scenes analysis.characters
        analysis.visual_style_lock sceneOracle analysis.scenes.length
        analysis.scenes.length 0 2 [] (by omega) (by simp)
      refine ⟨rest, ?_, by simpa using hmap⟩
      have hstore : ([] : List FullScenePrompt).map some
          ++ List.replicate (analysis.scenes.length - ([] : List FullScenePrompt).length) none
          = List.replicate analysis.scenes.length (none : Option FullScenePrompt) := by
        simp
      rw [← hstore, hrun]
      rfl
  obtain ⟨ps, hrun, hmap⟩ := hmain
  have hlen : ps.length = analysis.scenes.length := by
    have := congrArg List.length hmap
    simpa using this
  refine ⟨ps, hrun, hlen, ?_⟩
  intro j hj
  have hj1 : j < (ps.map FullScenePrompt.scene_id).length := by simpa using hj
  have h1 := List.getElem_of_eq hmap hj1
  rw [List.getElem_map] at h1
  rw [List.get_eq_getElem, h1, List.getElem_map, List.getElem_range']
  simp

/-!  ### Cooperative cancellation (C9)  -/

/-- Collapsing a dense-prefix store recovers the prompts. -/
theorem filterMap_id_shape (ps : List FullScenePrompt) (r : Nat) :
    (ps.map some ++ List.replicate r (none : Option FullScenePrompt)).filterMap id = ps := by
  induction ps with
  | nil =>
    induction r with
    | zero => rfl
    | succ r ihr => simp [List.replicate_succ, List.filterMap_cons, ihr]
  | cons p ps ihp => simp [List.filterMap_cons, ihp]

/-- Free tier: relative to the uncancelled run, a flagged run either
completes with the same prompts or is cancelled at a checkpoint with a
prefix of fully synthesized prompts. -/
theorem runFree_flag_prefix (ids : IdMap) (style : Str)
    (sceneOracle : Nat → Nat → AttemptOutcome) (flag : Nat → Bool) :
    ∀ (scenes : List SceneSegment) (i t : Nat) (acc full : List FullScenePrompt),
      runFreeGo ids style sceneOracle (fun _ => false) scenes i t acc = .completed full →
      runFreeGo ids style sceneOracle flag scenes i t acc = .completed full
      ∨ ∃ k, k ≤ full.length ∧
          runFreeGo ids style sceneOracle flag scenes i t acc = .cancelled (full.take k) := by
  intro scenes
  induction scenes with
  | nil =>
    intro i t acc full hfull
    left
    rw [runFreeGo] at hfull ⊢
    exact hfull
  | cons seg ss ih =>
    intro i t acc full hfull
    have hext : ∃ rest, full = acc ++ rest := by
      obtain ⟨rest, hrun, _⟩ := runFree_noflag_spec ids style sceneOracle (seg :: ss) i t acc
      exact ⟨rest, by simpa using hfull.symm.trans hrun⟩
    obtain ⟨rest, hrest⟩ := hext
    by_cases h0 : flag t = true
    · right
      refine ⟨acc.length, by simp [hrest], ?_⟩
      rw [runFreeGo, if_pos h0, hrest, List.take_left]
    · by_cases h1 : flag (t + 1) = true
      · right
        refine ⟨acc.length, by simp [hrest], ?_⟩
        rw [runFreeGo, if_neg h0, if_pos h1, hrest, List.take_left]
      · rw [runFreeGo] at hfull
        simp only [Bool.false_eq_true, if_false] at hfull
        rw [runFreeGo, if_neg h0, if_neg h1]
        exact ih (i + 1) (t + 2)
          (acc ++ [(generateScenePromptFull seg i ids style acc.getLast?
            (sceneOracle i)).1]) full hfull

/-- Paid tier: same checkpoint-prefix relation, per batch. -/
theorem runPaid_flag_prefix (scenes : List SceneSegment) (ids : IdMap) (style : Str)
    (sceneOracle : Nat → Nat → AttemptOutcome) (flag : Nat → Bool) (n : Nat) :
    ∀ (K m t : Nat) (ps full : List FullScenePrompt),
      n ≤ m + K → ps.length = min m n →
      runPaidGo scenes ids style sceneOracle (fun _ => false) (paidBatches n m) t
          (ps.map some ++ List.replicate (n - ps.length) none) = .completed full →
      runPaidGo scenes ids style sceneOracle flag (paidBatches n m) t
          (ps.map some ++ List.replicate (n - ps.length) none) = .completed full
      ∨ ∃ k, k ≤ full.length ∧
          runPaidGo scenes ids style sceneOracle flag (paidBatches n m) t
              (ps.map some ++ List.replicate (n - ps.length) none)
            = .cancelled (full.take k) := by
  intro K
  induction K with
  | zero =>
    intro m t ps full hK hlen hfull
    have hmn : ¬ m < n := by omega
    left
    rw [paidBatches, if_neg hmn, runPaidGo] at hfull ⊢
    exact hfull
  | succ K ih =>
    intro m t ps full hK hlen hfull
    have hext : ∃ rest, full = ps ++ rest := by
      obtain ⟨rest, hrun, _⟩ := runPaid_noflag_spec scenes ids style sceneOracle n (K + 1)
        m t ps hK hlen
      exact ⟨rest, by simpa using hfull.symm.trans hrun⟩
    obtain ⟨rest, hrest⟩ := hext
    by_cases hm : m < n
    · have hps : ps.length = m := by rw [hlen]; omega
      by_cases h0 : flag t = true
      · right
        refine ⟨ps.length, by simp [hrest], ?_⟩
        rw [paidBatches, if_pos hm, runPaidGo, if_pos h0, hrest, List.take_left,
          filterMap_id_shape]
      · rw [paidBatches, if_pos hm, runPaidGo] at hfull
        simp only [Bool.false_eq_true, if_false] at hfull
        rw [paidBatches, if_pos hm, runPaidGo]
        simp only [if_neg h0]
        have hsorted :
            ∀ (f : Nat → FullScenePrompt),
              ((List.range' m (min (m + PAID_PARALLEL_BATCH_SIZE) n - m)).map
                  (fun i => (i, f i))).mergeSort (fun a b => a.1 ≤ b.1)
                = (List.range' m (min (m + PAID_PARALLEL_BATCH_SIZE) n - m)).map
                    (fun i => (i, f i)) := by
          intro f
          apply List.mergeSort_of_sorted
          have hpw : (List.range' m (min (m + PAID_PARALLEL_BATCH_SIZE) n - m)).Pairwise
              (· < ·) := List.pairwise_lt_range' _ _
          simpa using List.Pairwise.map _ (fun a b (h : a < b) => by simpa using le_of_lt h)
            hpw
        rw [hsorted] at hfull ⊢
        rw [show n - ps.length = n - m from by rw [hps]] at hfull ⊢
        rw [foldl_set_range' _ _ _ _ _ hps
          (by simp only [PAID_PARALLEL_BATCH_SIZE]; omega)] at hfull ⊢
        have harg : n - (m + (min (m + PAID_PARALLEL_BATCH_SIZE) n - m))
            = n - (ps ++ (List.range' m (min (m + PAID_PARALLEL_BATCH_SIZE) n - m)).map
                (fun i => (generateScenePromptFull (scenes.getD i dummySegment) i ids style
                  (if (List.range' m (min (m + PAID_PARALLEL_BATCH_SIZE) n - m)).headD 0 > 0
                   then (ps.map some ++ List.replicate (n - m) none).getD
                      ((List.range' m (min (m + PAID_PARALLEL_BATCH_SIZE) n - m)).headD 0 - 1)
                      none
                   else none)
                  (sceneOracle i)).1)).length := by
          rw [List.length_append, List.length_map, List.length_range', hps]
        rw [harg] at hfull ⊢
        exact ih (m + PAID_PARALLEL_BATCH_SIZE) (t + 1) _ full
          (by simp only [PAID_PARALLEL_BATCH_SIZE] at *; omega)
          (by rw [List.length_append, List.length_map, List.length_range', hps]
              simp only [PAID_PARALLEL_BATCH_SIZE] at *
              omega)
          hfull
    · left
      rw [paidBatches, if_neg hm, runPaidGo] at hfull ⊢
      exact hfull

/-- **C9.** Cancellation is cooperative: sampled only at the loop's
checkpoints (before each scene or batch, and around the pause-wait), and it
resolves the approval-wait.  A cancelled run ends in the *distinct*
`cancelled` outcome — a normal return of the prompts produced so far, never
a thrown error — and those prompts are an exact prefix of the uncancelled
run's prompts: every included scene was synthesized to completion, no
in-flight synthesis is aborted. -/
theorem c9_cooperative_cancellation (analysis : StoryAnalysis) (approved usePaid : Bool)
    (sceneOracle : Nat → Nat → AttemptOutcome) (flag : Nat → Bool) :
    (flag 0 = true →
      generatePromptsV2 analysis approved usePaid sceneOracle flag = .cancelled [])
    ∧ (approved = false →
      generatePromptsV2 analysis approved usePaid sceneOracle flag = .cancelled [])
    ∧ (∀ full,
        generatePromptsV2 analysis approved usePaid sceneOracle (fun _ => false)
          = .completed full →
        generatePromptsV2 analysis approved usePaid sceneOracle flag = .completed full
        ∨ ∃ k, k ≤ full.length ∧
            generatePromptsV2 analysis approved usePaid sceneOracle flag
              = .cancelled (full.take k)) := by
  refine ⟨fun h0 => by rw [generatePromptsV2, if_pos h0], ?_, ?_⟩
  · intro happ
    subst happ
    rw [generatePromptsV2]
    by_cases h0 : flag 0 = true
    · rw [if_pos h0]
    · rw [if_neg h0, if_pos (by simp)]
  · intro full hfull
    rw [generatePromptsV2] at hfull
    simp only [Bool.false_eq_true, if_false] at hfull
    by_cases happ : approved = true
    · subst happ
      simp only [not_true, false_or] at hfull
      by_cases h0 : flag 0 = true
      · right
        have hext : ∃ ps, full = ps := ⟨full, rfl⟩
        refine ⟨0, by omega, ?_⟩
        rw [generatePromptsV2, if_pos h0]
        simp
      · by_cases h1 : flag 1 = true
        · right
          refine ⟨0, by omega, ?_⟩
          rw [generatePromptsV2, if_neg h0, if_pos (by simp [h1])]
          simp
        · rw [generatePromptsV2, if_neg h0,
            if_neg (by simp [h1])]
          by_cases hpaid : usePaid = true
          · subst hpaid
            simp only [if_true] at hfull ⊢
            have hstore : (List.replicate analysis.scenes.length
                  (none : Option FullScenePrompt))
                = ([] : List FullScenePrompt).map some
                  ++ List.replicate
                      (analysis.scenes.length - ([] : List FullScenePrompt).length) none := by
              simp
            rw [hstore] at hfull ⊢
            exact runPaid_flag_prefix analysis.scenes analysis.characters
              analysis.visual_style_lock sceneOracle flag analysis.scenes.length
              analysis.scenes.length 0 2 [] full (by omega) (by simp) hfull
          · have hpf : usePaid = false := by
              cases usePaid
              · rfl
              · exact absurd rfl hpaid
            subst hpf
            simp only [Bool.false_eq_true, if_false] at hfull ⊢
            exact runFree_flag_prefix analysis.characters analysis.visual_style_lock
              sceneOracle flag analysis.scenes 0 2 [] full hfull
    · have hpf2 : approved = false := by
        cases approved
        · rfl
        · exact absurd rfl happ
      subst hpf2
      simp at hfull

/-- Witness for C9: cancelling before the first checkpoint yields the
distinct `cancelled` outcome with no prompts. -/
theorem c9_cooperative_cancellation_witness :
    generatePromptsV2 exAnalysis true false (fun _ _ => .failure) (fun _ => true)
      = .cancelled [] :=
  (c9_cooperative_cancellation exAnalysis true false (fun _ _ => .failure)
    (fun _ => true)).1 rfl

/-!  ### Free-only key rotation and single cooldown retry (C7)  -/

theorem parseRetryDelay_le (msg : Str) : parseRetryDelay msg ≤ 120000 := by
  unfold parseRetryDelay
  cases findRetryHint msg with
  | none => decide
  | some q => exact Nat.min_le_right _ _

theorem parseRetryDelay_default (msg : Str) (h : findRetryHint msg = none) :
    parseRetryDelay msg = 60000 := by
  unfold parseRetryDelay
  rw [h]

theorem exists_mod_shift (Kk c j : Nat) (hK : 0 < Kk) (hj : j < Kk) :
    ∃ i, i < Kk ∧ (c + i) % Kk = j := by
  have hc : c % Kk < Kk := Nat.mod_lt _ hK
  refine ⟨(j + Kk - c % Kk) % Kk, Nat.mod_lt _ hK, ?_⟩
  by_cases hcm : c % Kk ≤ j
  · have h1 : j + Kk - c % Kk = (j - c % Kk) + Kk := by omega
    have h2 : (j + Kk - c % Kk) % Kk = j - c % Kk := by
      rw [h1, Nat.add_mod_right, Nat.mod_eq_of_lt (by omega)]
    rw [h2, Nat.add_mod, Nat.mod_eq_of_lt (show j - c % Kk < Kk by omega),
      show c % Kk + (j - c % Kk) = j from by omega]
    exact Nat.mod_eq_of_lt hj
  · have h2 : (j + Kk - c % Kk) % Kk = j + Kk - c % Kk :=
      Nat.mod_eq_of_lt (by omega)
    rw [h2, Nat.add_mod, Nat.mod_eq_of_lt (show j + Kk - c % Kk < Kk by omega),
      show c % Kk + (j + Kk - c % Kk) = j + Kk from by omega, Nat.add_mod_right,
      Nat.mod_eq_of_lt hj]

theorem findNextUntried_lt (numKeys current : Nat) (tried : List Nat)
    (hK : 0 < numKeys) (hc : current < numKeys) :
    findNextUntried numKeys current tried < numKeys := by
  unfold findNextUntried
  cases hfind : (List.range numKeys).find?
      (fun i => ((current + 1 + i) % numKeys) ∉ tried) with
  | none => exact hc
  | some i => exact Nat.mod_lt _ hK

theorem findNextUntried_spec (numKeys current : Nat) (tried : List Nat)
    (hK : 0 < numKeys) (hnd : tried.Nodup)
    (hlt : tried.length < numKeys) :
    findNextUntried numKeys current tried ∉ tried := by
  have huntried : ∃ j, j < numKeys ∧ j ∉ tried := by
    by_contra hcontra
    push_neg at hcontra
    have hsub : Finset.range numKeys ⊆ tried.toFinset := by
      intro x hx
      rw [List.mem_toFinset]
      exact hcontra x (Finset.mem_range.mp hx)
    have hcard := Finset.card_le_card hsub
    rw [Finset.card_range, List.toFinset_card_of_nodup hnd] at hcard
    omega
  obtain ⟨j, hjlt, hjnot⟩ := huntried
  obtain ⟨i, hilt, hieq⟩ := exists_mod_shift numKeys (current + 1) j hK hjlt
  have hsome : ((List.range numKeys).find?
      (fun i => ((current + 1 + i) % numKeys) ∉ tried)).isSome := by
    rw [List.find?_isSome]
    exact ⟨i, List.mem_range.mpr hilt, by simpa [hieq] using hjnot⟩
  unfold findNextUntried
  obtain ⟨i', hi'⟩ := Option.isSome_iff_exists.mp hsome
  rw [hi']
  have := List.find?_some hi'
  simpa using this

/-- First-pass invariant: with every key's call failing, the pass makes one
distinct call per key, ends with the oracle cursor at `numKeys`, and leaves
`lastRetryDelay` at its prior value or at the parsed hint of some observed
rate-limit message. -/
theorem firstPassGo_spec (oracle : Nat → ApiOutcome) (numKeys : Nat)
    (hK : 0 < numKeys) (hfail : ∀ n, n < numKeys → (oracle n).isOk = false) :
    ∀ (fuel callNo current : Nat) (tried : List Nat) (lastDelay : Nat),
      tried.Nodup → current < numKeys →
      callNo = tried.length → tried.length + fuel = numKeys →
      (fuel = 0 ∨ current ∉ tried) →
      ∃ (idxs : List Nat) (ld : Nat),
        firstPassGo oracle numKeys fuel callNo current tried lastDelay
          = (none, idxs.map CallEv.call, numKeys, ld)
        ∧ idxs.length = fuel ∧ idxs.Nodup ∧ (∀ x ∈ idxs, x ∉ tried)
        ∧ (∀ x ∈ idxs, x < numKeys)
        ∧ (ld = lastDelay ∨ ∃ msg n, n < numKeys ∧ oracle n = .rateLimited msg
            ∧ ld = parseRetryDelay msg) := by
  intro fuel
  induction fuel with
  | zero =>
    intro callNo current tried lastDelay _ _ hcall htot _
    refine ⟨[], lastDelay, ?_, rfl, List.nodup_nil, by simp, by simp, Or.inl rfl⟩
    have hc2 : callNo = numKeys := by omega
    rw [firstPassGo, hc2]
    simp
  | succ fuel ih =>
    intro callNo current tried lastDelay hnd hcur hcall htot hnew
    have hlt : tried.length < numKeys := by omega
    have hcurnot : current ∉ tried := hnew.resolve_left (by omega)
    have htried' : addTried tried current = tried ++ [current] := by
      unfold addTried
      rw [if_neg hcurnot]
    have hnd' : (tried ++ [current]).Nodup := by
      rw [List.nodup_append]
      refine ⟨hnd, List.nodup_singleton _, ?_⟩
      intro a ha hb
      rw [List.mem_singleton] at hb
      exact hcurnot (hb ▸ ha)
    have hfailNo : (oracle callNo).isOk = false := hfail callNo (by omega)
    rw [firstPassGo, if_pos hlt, htried']
    have hnextlt := findNextUntried_lt numKeys current (tried ++ [current]) hK hcur
    cases horacle : oracle callNo with
    | ok d => rw [horacle] at hfailNo; simp [ApiOutcome.isOk] at hfailNo
    | rateLimited msg =>
      have hrec := ih (callNo + 1) (findNextUntried numKeys current (tried ++ [current]))
        (tried ++ [current]) (parseRetryDelay msg) hnd' hnextlt
        (by simp [hcall]) (by simp; omega)
        (by by_cases hf : fuel = 0
            · exact Or.inl hf
            · refine Or.inr (findNextUntried_spec numKeys current (tried ++ [current])
                hK hnd' ?_)
              simp
              omega)
      obtain ⟨idxs, ld, hrun, hlen, hnd2, hdisj, hbound, hld⟩ := hrec
      refine ⟨current :: idxs, ld, ?_, by simp [hlen], ?_, ?_, ?_, ?_⟩
      · simp only [hrun, List.map_cons]
      · rw [List.nodup_cons]
        refine ⟨fun hmem => ?_, hnd2⟩
        exact hdisj current hmem (by simp)
      · intro x hx
        rcases List.mem_cons.mp hx with hx | hx
        · exact hx ▸ hcurnot
        · intro hxt
          exact hdisj x hx (by simp [hxt])
      · intro x hx
        rcases List.mem_cons.mp hx with hx | hx
        · exact hx ▸ hcur
        · exact hbound x hx
      · rcases hld with hld | hld
        · exact Or.inr ⟨msg, callNo, by omega, horacle, hld⟩
        · exact Or.inr hld
    | err =>
      have hrec := ih (callNo + 1) (findNextUntried numKeys current (tried ++ [current]))
        (tried ++ [current]) lastDelay hnd' hnextlt
        (by simp [hcall]) (by simp; omega)
        (by by_cases hf : fuel = 0
            · exact Or.inl hf
            · refine Or.inr (findNextUntried_spec numKeys current (tried ++ [current])
                hK hnd' ?_)
              simp
              omega)
      obtain ⟨idxs, ld, hrun, hlen, hnd2, hdisj, hbound, hld⟩ := hrec
      refine ⟨current :: idxs, ld, ?_, by simp [hlen], ?_, ?_, ?_, hld⟩
      · simp only [hrun, List.map_cons]
      · rw [List.nodup_cons]
        refine ⟨fun hmem => ?_, hnd2⟩
        exact hdisj current hmem (by simp)
      · intro x hx
        rcases List.mem_cons.mp hx with hx | hx
        · exact hx ▸ hcurnot
        · intro hxt
          exact hdisj x hx (by simp [hxt])
      · intro x hx
        rcases List.mem_cons.mp hx with hx | hx
        · exact hx ▸ hcur
        · exact hbound x hx

/-- **C7.** In free-only mode, one logical call first tries each free key
at most once (here: exactly once, all distinct); when every key fails, the
limiter waits exactly once for the bounded hint duration (a parsed
`retry in N s` hint, or the 60 s default when unparseable, capped at
120 s), performs exactly one additional retry with the next rotated key,
and surfaces a hard failure (`none`) only if that retry also fails. -/
theorem c7_free_only_single_cooldown_retry (numKeys cc0 : Nat)
    (oracle : Nat → ApiOutcome) (hK : 0 < numKeys)
    (hfail : ∀ n, n < numKeys → (oracle n).isOk = false) :
    ∃ (idxs : List Nat) (d : Nat),
      idxs.length = numKeys ∧ idxs.Nodup ∧ (∀ j ∈ idxs, j < numKeys)
      ∧ d ≤ 120000
      ∧ (d = 60000 ∨ ∃ msg n, n < numKeys ∧ oracle n = .rateLimited msg
          ∧ d = parseRetryDelay msg)
      ∧ (callGeminiFreeOnly numKeys cc0 oracle).2
          = idxs.map CallEv.call ++ [CallEv.wait d, CallEv.call ((cc0 + 1) % numKeys)]
      ∧ (callGeminiFreeOnly numKeys cc0 oracle).1
          = (match oracle numKeys with | .ok dd => some dd | _ => none)
      ∧ (∀ msg, findRetryHint msg = none → parseRetryDelay msg = 60000)
      ∧ (∀ msg, parseRetryDelay msg ≤ 120000) := by
  obtain ⟨idxs, ld, hrun, hlen, hnd, _, hbound, hld⟩ :=
    firstPassGo_spec oracle numKeys hK hfail numKeys 0 (cc0 % numKeys) [] 60000
      List.nodup_nil (Nat.mod_lt _ hK) rfl (by simp) (Or.inr (by simp))
  refine ⟨idxs, ld, hlen, hnd, hbound, ?_, ?_, ?_, ?_, parseRetryDelay_default,
    parseRetryDelay_le⟩
  · rcases hld with hld | ⟨msg, n, _, _, hld⟩
    · omega
    · rw [hld]; exact parseRetryDelay_le msg
  · rcases hld with hld | hld
    · exact Or.inl hld
    · exact Or.inr hld
  · rw [callGeminiFreeOnly]
    simp only [hrun]
    cases horacle : oracle numKeys <;> simp [horacle]
  · rw [callGeminiFreeOnly]
    simp only [hrun]
    cases horacle : oracle numKeys <;> simp [horacle]

/-!  ### Word-count accounting for the segmenter (C2)  -/

theorem wordState_nil (b : Bool) : wordState [] b = b := rfl

theorem wordState_cons (c : Char) (l : Str) (b : Bool) :
    wordState (c :: l) b = wordState l (! isJsWs c) := rfl

theorem wordRunsGo_append (l m : Str) :
    ∀ b, wordRunsGo (l ++ m) b = wordRunsGo l b + wordRunsGo m (wordState l b) := by
  induction l with
  | nil => intro b; simp [wordRunsGo, wordState_nil]
  | cons c l ih =>
    intro b
    rw [List.cons_append, wordRunsGo, wordRunsGo, wordState_cons]
    cases hc : isJsWs c with
    | true =>
      simp only [hc, eq_self_iff_true, if_true, Bool.not_true]
      rw [ih false]
    | false =>
      simp only [hc, Bool.false_eq_true, if_false, Bool.not_false]
      rw [ih true]
      omega

theorem wordRunsGo_allWs (m : Str) (hm : ∀ c ∈ m, isJsWs c) :
    ∀ b, wordRunsGo m b = 0 := by
  induction m with
  | nil => intro b; rfl
  | cons c l ih =>
    intro b
    rw [wordRunsGo, if_pos (hm c (by simp))]
    exact ih (fun x hx => hm x (by simp [hx])) false

theorem wordRunsGo_dropWhile (l : Str) :
    wordRunsGo (l.dropWhile isJsWs) false = wordRunsGo l false := by
  induction l with
  | nil => rfl
  | cons c l ih =>
    by_cases hc : isJsWs c
    · rw [List.dropWhile_cons_of_pos hc, ih, wordRunsGo, if_pos hc]
    · rw [List.dropWhile_cons_of_neg (by simpa using hc)]

theorem wordRuns_jsTrim (s : Str) :
    wordRunsGo (jsTrim s) false = wordRunsGo s false := by
  rw [jsTrim]
  set u := s.dropWhile isJsWs with hu
  have hsplit : u.reverse = u.reverse.takeWhile isJsWs ++ u.reverse.dropWhile isJsWs :=
    (List.takeWhile_append_dropWhile _ _).symm
  have hudecomp : u = (u.reverse.dropWhile isJsWs).reverse
      ++ (u.reverse.takeWhile isJsWs).reverse := by
    conv_lhs => rw [← List.reverse_reverse u, hsplit]
    rw [List.reverse_append]
  have htrail : ∀ c ∈ (u.reverse.takeWhile isJsWs).reverse, isJsWs c := by
    intro c hc
    rw [List.mem_reverse] at hc
    exact List.mem_takeWhile_imp hc
  calc wordRunsGo (u.reverse.dropWhile isJsWs).reverse false
      = wordRunsGo (u.reverse.dropWhile isJsWs).reverse false
        + wordRunsGo (u.reverse.takeWhile isJsWs).reverse
            (wordState (u.reverse.dropWhile isJsWs).reverse false) := by
        rw [wordRunsGo_allWs _ htrail]
        omega
    _ = wordRunsGo u false := by rw [← wordRunsGo_append, ← hudecomp]
    _ = wordRunsGo s false := by rw [hu, wordRunsGo_dropWhile]

theorem splitWsGo_count (s acc : Str) :
    ((splitWsGo s acc).filter (fun w => ¬ w.isEmpty)).length
      = wordRunsGo s (! acc.isEmpty) + (if acc.isEmpty then 0 else 1) := by
  induction s, acc using splitWsGo.induct with
  | case1 acc =>
    cases acc with
    | nil => simp [splitWsGo, wordRunsGo]
    | cons a t =>
      rw [splitWsGo]
      simp [wordRunsGo, List.isEmpty_iff]
  | case2 c rest acc h ih =>
    rw [splitWsGo, if_pos h, wordRunsGo, if_pos h, List.filter_cons]
    simp only [List.isEmpty_nil, Bool.not_true, if_pos] at ih
    rw [wordRunsGo_dropWhile] at ih
    cases hacc : acc.isEmpty with
    | true =>
      have hnil : acc = [] := by simpa [List.isEmpty_iff] using hacc
      subst hnil
      simpa using ih
    | false =>
      obtain ⟨a, t, rfl⟩ : ∃ a t, acc = a :: t := by
        cases acc with
        | nil => simp at hacc
        | cons a t => exact ⟨a, t, rfl⟩
      have hcond : decide (¬ (((a :: t).reverse).isEmpty = true)) = true := by
        simp [List.isEmpty_iff]
      rw [if_pos hcond, List.length_cons, ih]
      simp
  | case3 c rest acc h ih =>
    rw [splitWsGo, if_neg h, wordRunsGo, if_neg h, ih]
    cases hacc : acc.isEmpty
    all_goals simp [hacc]
    all_goals omega

/-- `jsWordCount` is exactly the number of non-whitespace runs. -/
theorem jsWordCount_eq_wordRuns (s : Str) :
    jsWordCount s = wordRunsGo s false := by
  rw [jsWordCount, splitWs, splitWsGo_count, ← wordRuns_jsTrim s]
  simp

/-- Sentence splitting neither loses nor duplicates words. -/
theorem sentSplitGo_sum (s acc : Str) :
    ((sentSplitGo s acc).map (fun p => wordRunsGo p false)).sum
      = wordRunsGo (acc.reverse ++ s) false := by
  induction s, acc using sentSplitGo.induct with
  | case1 acc => simp [sentSplitGo]
  | case2 c rest acc h ih =>
    obtain ⟨hpunct, hws⟩ := h
    have hcns : isJsWs c = false := by
      have h2 : c = '.' ∨ c = '!' ∨ c = '?' := by
        simpa [isSentPunct, or_assoc] using hpunct
      rcases h2 with h1 | h1 | h1 <;> subst h1 <;> decide
    obtain ⟨w, rest', rfl, hwws⟩ : ∃ w rest', rest = w :: rest' ∧ isJsWs w = true := by
      cases rest with
      | nil => simp at hws
      | cons w rest' => exact ⟨w, rest', rfl, by simpa using hws⟩
    rw [sentSplitGo, if_pos ⟨hpunct, hws⟩, List.map_cons, List.sum_cons, ih]
    simp only [List.reverse_nil, List.nil_append]
    rw [List.dropWhile_cons_of_pos hwws, wordRunsGo_dropWhile rest',
      wordRunsGo_append, wordRunsGo_append]
    simp only [wordRunsGo, hcns, hwws, Bool.false_eq_true, if_false, if_true]
    ring
  | case3 c rest acc h ih =>
    rw [sentSplitGo, if_neg h, ih]
    rw [List.reverse_cons, List.append_assoc]
    rfl

/-- Dropping trim-empty pieces does not change the summed word count. -/
theorem sum_map_filter_trim (l : List Str) :
    ((l.filter (fun p => ¬ (jsTrim p).isEmpty)).map (fun p => wordRunsGo p false)).sum
      = (l.map (fun p => wordRunsGo p false)).sum := by
  induction l with
  | nil => rfl
  | cons a t ih =>
    rw [List.map_cons, List.sum_cons, List.filter_cons]
    by_cases hq : (jsTrim a).isEmpty = true
    · have hqe : jsTrim a = [] := by simpa [List.isEmpty_iff] using hq
      have ha0 : wordRunsGo a false = 0 := by rw [← wordRuns_jsTrim a, hqe]; rfl
      rw [if_neg (by simp [hq]), ih, ha0, Nat.zero_add]
    · rw [if_pos (by simp [hq]), List.map_cons, List.sum_cons, ih]

/-- The per-sentence word counts of the segmenter sum to the script's total
word count. -/
theorem sentences_wordCount_sum (s : Str) :
    ((sentences s).map jsWordCount).sum = scriptWordCount s := by
  simp only [sentences, scriptWordCount]
  rw [List.map_congr_left (fun p _ => jsWordCount_eq_wordRuns p), sum_map_filter_trim]
  simpa [sentSplit] using sentSplitGo_sum s []

/-- Every sentence the segmenter iterates over has at least one word. -/
theorem sentences_wordCount_pos (s p : Str) (hp : p ∈ sentences s) :
    1 ≤ jsWordCount p := by
  have hzero : ∀ (l : Str), wordRunsGo l false = 0 → l.dropWhile isJsWs = [] := by
    intro l
    induction l with
    | nil => intro _; rfl
    | cons c rest ih =>
      intro h0
      by_cases hc : isJsWs c
      · rw [wordRunsGo, if_pos hc] at h0
        rw [List.dropWhile_cons_of_pos hc]
        exact ih h0
      · rw [wordRunsGo, if_neg hc] at h0
        simp at h0
  rw [sentences, List.mem_filter] at hp
  have hne : ¬ ((jsTrim p).isEmpty = true) := by simpa using hp.2
  rw [jsWordCount_eq_wordRuns]
  by_contra hlt
  have h0 : wordRunsGo p false = 0 := by omega
  have hdw : p.dropWhile isJsWs = [] := hzero p h0
  apply hne
  rw [jsTrim, hdw]
  rfl

/-- One step of the segmenter loop when the buffer reaches the target: the
current fragment (including this sentence) is flushed and the buffer is
debited by the nominal target. -/
theorem splitGo_cons_flush {d : ℚ} {s : Str} {rest : List Str} {tb : ℚ}
    {cur : List Str} {curWC fragStart : Nat}
    (h : tb + (jsWordCount s : ℚ) / WORDS_PER_SECOND ≥ d) :
    splitGo d (s :: rest) tb cur curWC fragStart =
      { text := List.intercalate [' '] (cur ++ [s])
        wordCount := curWC + jsWordCount s
        durationSec := fragmentDuration (curWC + jsWordCount s)
        startWord := fragStart
        endWord := fragStart + (curWC + jsWordCount s) - 1 } ::
        splitGo d rest (tb + (jsWordCount s : ℚ) / WORDS_PER_SECOND - d) [] 0
          (fragStart + (curWC + jsWordCount s)) := by
  rw [splitGo]
  rw [if_pos h]

/-- One step of the segmenter loop when the buffer is still below the target:
the sentence joins the current fragment. -/
theorem splitGo_cons_noflush {d : ℚ} {s : Str} {rest : List Str} {tb : ℚ}
    {cur : List Str} {curWC fragStart : Nat}
    (h : ¬ (tb + (jsWordCount s : ℚ) / WORDS_PER_SECOND ≥ d)) :
    splitGo d (s :: rest) tb cur curWC fragStart =
      splitGo d rest (tb + (jsWordCount s : ℚ) / WORDS_PER_SECOND) (cur ++ [s])
        (curWC + jsWordCount s) fragStart := by
  rw [splitGo]
  rw [if_neg h]

/-- The segmenter loop groups its input sentences, in order, into the
fragments it emits: each fragment's text is the space-join of its group and
its word count is the group's summed word count. -/
theorem splitGo_partition (d : ℚ) (ss : List Str) :
    ∀ (tb : ℚ) (cur : List Str) (fragStart : Nat),
      ∃ (groups : List (List Str)),
        groups.flatten = cur ++ ss ∧
        (∀ g ∈ groups, g ≠ []) ∧
        (splitGo d ss tb cur ((cur.map jsWordCount).sum) fragStart).map
            TextFragment.text
          = groups.map (List.intercalate [' ']) ∧
        (splitGo d ss tb cur ((cur.map jsWordCount).sum) fragStart).map
            TextFragment.wordCount
          = groups.map (fun g => (g.map jsWordCount).sum) := by
  induction ss with
  | nil =>
    intro tb cur fragStart
    by_cases hc : cur = []
    · subst hc
      exact ⟨[], by simp, by simp, by rw [splitGo]; simp, by rw [splitGo]; simp⟩
    · refine ⟨[cur], by simp, by simp [hc], ?_, ?_⟩
      · rw [splitGo]
        simp [List.isEmpty_iff, hc]
      · rw [splitGo]
        simp [List.isEmpty_iff, hc]
  | cons s rest ih =>
    intro tb cur fragStart
    by_cases hf : tb + (jsWordCount s : ℚ) / WORDS_PER_SECOND ≥ d
    · obtain ⟨groups, hflat, hne, htext, hwc⟩ :=
        ih (tb + (jsWordCount s : ℚ) / WORDS_PER_SECOND - d) []
          (fragStart + ((cur.map jsWordCount).sum + jsWordCount s))
      simp only [List.map_nil, List.sum_nil] at htext hwc
      refine ⟨(cur ++ [s]) :: groups, ?_, ?_, ?_, ?_⟩
      · rw [List.flatten_cons, hflat]
        simp
      · intro g hg
        rcases List.mem_cons.mp hg with rfl | hg'
        · simp
        · exact hne g hg'
      · rw [splitGo_cons_flush hf, List.map_cons, htext, List.map_cons]
      · rw [splitGo_cons_flush hf, List.map_cons, hwc, List.map_cons]
        simp
    · obtain ⟨groups, hflat, hne, htext, hwc⟩ :=
        ih (tb + (jsWordCount s : ℚ) / WORDS_PER_SECOND) (cur ++ [s]) fragStart
      have hsum : ((cur ++ [s]).map jsWordCount).sum
          = (cur.map jsWordCount).sum + jsWordCount s := by simp
      rw [hsum] at htext hwc
      refine ⟨groups, ?_, hne, ?_, ?_⟩
      · rw [hflat, List.append_assoc]
        rfl
      · rw [splitGo_cons_noflush hf, htext]
      · rw [splitGo_cons_noflush hf, hwc]

/-- C2: for every script and target duration the segmenter's fragments,
concatenated in order, carry exactly the script's sentences (no sentence lost,
duplicated, or reordered): the fragments arise from a partition of the
sentence list into consecutive non-empty groups, each fragment's text is the
space-join of its group and its wordCount the group's summed word count, and
the fragments' wordCounts sum to the total script word count. -/
theorem c2_segmenter_partition (script : Str) (d : ℚ) :
    ∃ (groups : List (List Str)),
      groups.flatten = sentences script ∧
      (∀ g ∈ groups, g ≠ []) ∧
      (splitScriptDeterministically script d).map TextFragment.text
        = groups.map (List.intercalate [' ']) ∧
      (splitScriptDeterministically script d).map TextFragment.wordCount
        = groups.map (fun g => (g.map jsWordCount).sum) ∧
      ((splitScriptDeterministically script d).map TextFragment.wordCount).sum
        = scriptWordCount script := by
  obtain ⟨groups, hflat, hne, htext, hwc⟩ :=
    splitGo_partition d (sentences script) 0 [] 0
  simp only [List.map_nil, List.sum_nil, List.nil_append] at hflat htext hwc
  have htext' : (splitScriptDeterministically script d).map TextFragment.text
      = groups.map (List.intercalate [' ']) := htext
  have hwc' : (splitScriptDeterministically script d).map TextFragment.wordCount
      = groups.map (fun g => (g.map jsWordCount).sum) := hwc
  refine ⟨groups, hflat, hne, htext', hwc', ?_⟩
  rw [hwc', ← sentences_wordCount_sum script, ← hflat, List.map_flatten,
    List.sum_flatten, List.map_map]
  rfl

/-- `Math.max(4, Math.round(24 / WORDS_PER_SECOND))` = `round(11.90…)` = 12. -/
theorem fragmentDuration_24 : fragmentDuration 24 = 12 := by
  rw [fragmentDuration, jsRound, WORDS_PER_SECOND, WPM]
  rw [show (((24 : Nat) : ℚ) / ((121 : ℚ) / 60) + 1 / 2) = 3001 / 242 by norm_num]
  rw [show ⌊(3001 / 242 : ℚ)⌋ = 12 from by rw [Int.floor_eq_iff]; norm_num]
  rfl

/-- C10: a script of exactly 3 sentences totaling 24 words, at target scene
duration 8 s, yields exactly one fragment of 24 words with a 12 s duration —
the buffer only flushes once it reaches 8 s, at the last sentence — unless a
sentence boundary reaches the 8 s target earlier, in which case exactly 2
fragments result; the split is a deterministic function of the script. -/
theorem c10_three_sentence_example (script s1 s2 s3 : Str)
    (hs : sentences script = [s1, s2, s3])
    (hsum : jsWordCount s1 + jsWordCount s2 + jsWordCount s3 = 24) :
    splitScriptDeterministically script 8 =
        [{ text := List.intercalate [' '] [s1, s2, s3]
           wordCount := 24
           durationSec := 12
           startWord := 0
           endWord := 23 }]
      ∨ (splitScriptDeterministically script 8).length = 2 := by
  have hw1 : 1 ≤ jsWordCount s1 := sentences_wordCount_pos script s1 (by rw [hs]; simp)
  have hw2 : 1 ≤ jsWordCount s2 := sentences_wordCount_pos script s2 (by rw [hs]; simp)
  have hw3 : 1 ≤ jsWordCount s3 := sentences_wordCount_pos script s3 (by rw [hs]; simp)
  have hA : ((jsWordCount s1 : ℚ)) / WORDS_PER_SECOND
      = 60 * (jsWordCount s1 : ℚ) / 121 := by rw [WORDS_PER_SECOND, WPM]; ring
  have hB : ((jsWordCount s2 : ℚ)) / WORDS_PER_SECOND
      = 60 * (jsWordCount s2 : ℚ) / 121 := by rw [WORDS_PER_SECOND, WPM]; ring
  have hC : ((jsWordCount s3 : ℚ)) / WORDS_PER_SECOND
      = 60 * (jsWordCount s3 : ℚ) / 121 := by rw [WORDS_PER_SECOND, WPM]; ring
  have hQsum : ((jsWordCount s1 : ℚ)) + (jsWordCount s2 : ℚ) + (jsWordCount s3 : ℚ)
      = 24 := by exact_mod_cast hsum
  have hQ1 : (1 : ℚ) ≤ (jsWordCount s1 : ℚ) := by exact_mod_cast hw1
  have hQ2 : (1 : ℚ) ≤ (jsWordCount s2 : ℚ) := by exact_mod_cast hw2
  have hQ3 : (1 : ℚ) ≤ (jsWordCount s3 : ℚ) := by exact_mod_cast hw3
  simp only [splitScriptDeterministically, hs]
  by_cases hc1 : (0 : ℚ) + (jsWordCount s1 : ℚ) / WORDS_PER_SECOND ≥ 8
  · -- the first sentence alone reaches the target: 2 fragments
    right
    have hc2 : ¬ ((0 : ℚ) + (jsWordCount s1 : ℚ) / WORDS_PER_SECOND - 8
        + (jsWordCount s2 : ℚ) / WORDS_PER_SECOND ≥ 8) := by
      rw [hA, hB]
      intro hcon
      linarith
    have hc3 : ¬ ((0 : ℚ) + (jsWordCount s1 : ℚ) / WORDS_PER_SECOND - 8
        + (jsWordCount s2 : ℚ) / WORDS_PER_SECOND
        + (jsWordCount s3 : ℚ) / WORDS_PER_SECOND ≥ 8) := by
      rw [hA, hB, hC]
      intro hcon
      linarith
    rw [splitGo_cons_flush hc1, splitGo_cons_noflush hc2,
      splitGo_cons_noflush hc3, splitGo]
    simp
  · by_cases hc2 : (0 : ℚ) + (jsWordCount s1 : ℚ) / WORDS_PER_SECOND
        + (jsWordCount s2 : ℚ) / WORDS_PER_SECOND ≥ 8
    · -- the first two sentences reach the target: 2 fragments
      right
      have hc3 : ¬ ((0 : ℚ) + (jsWordCount s1 : ℚ) / WORDS_PER_SECOND
          + (jsWordCount s2 : ℚ) / WORDS_PER_SECOND - 8
          + (jsWordCount s3 : ℚ) / WORDS_PER_SECOND ≥ 8) := by
        rw [hA, hB, hC]
        intro hcon
        linarith
      rw [splitGo_cons_noflush hc1, splitGo_cons_flush hc2,
        splitGo_cons_noflush hc3, splitGo]
      simp
    · -- no early flush: the single 24-word, 12-second fragment
      left
      have hc3 : (0 : ℚ) + (jsWordCount s1 : ℚ) / WORDS_PER_SECOND
          + (jsWordCount s2 : ℚ) / WORDS_PER_SECOND
          + (jsWordCount s3 : ℚ) / WORDS_PER_SECOND ≥ 8 := by
        rw [hA, hB, hC]
        linarith
      rw [splitGo_cons_noflush hc1, splitGo_cons_noflush hc2,
        splitGo_cons_flush hc3, splitGo]
      rw [show 0 + jsWordCount s1 + jsWordCount s2 + jsWordCount s3 = 24 from by omega]
      rw [fragmentDuration_24]
      simp

unseal splitWsGo sentSplitGo in
/-- Witness for C10: a concrete 3-sentence, 3×8-word script. -/
theorem c10_three_sentence_example_witness :
    splitScriptDeterministically c10Script 8 =
        [{ text := List.intercalate [' '] [c10S1, c10S2, c10S3]
           wordCount := 24
           durationSec := 12
           startWord := 0
           endWord := 23 }]
      ∨ (splitScriptDeterministically c10Script 8).length = 2 :=
  c10_three_sentence_example c10Script c10S1 c10S2 c10S3 (by decide) (by decide)

unseal replaceAll in
/-- Witness for C7 with 2 keys that always error and a failing retry: two
distinct first-pass calls, one 60 s default wait, one retry call, hard
failure. -/
theorem c7_free_only_single_cooldown_retry_witness :
    callGeminiFreeOnly 2 0 (fun _ => .err)
      = (none, [CallEv.call 0, CallEv.call 1, CallEv.wait 60000, CallEv.call 1])
    ∧ ∃ (idxs : List Nat) (d : Nat),
        idxs.length = 2 ∧ idxs.Nodup ∧ (∀ j ∈ idxs, j < 2)
        ∧ d ≤ 120000
        ∧ (d = 60000 ∨ ∃ msg n, n < 2 ∧ (fun _ => ApiOutcome.err) n = .rateLimited msg
            ∧ d = parseRetryDelay msg)
        ∧ (callGeminiFreeOnly 2 0 (fun _ => .err)).2
            = idxs.map CallEv.call ++ [CallEv.wait d, CallEv.call ((0 + 1) % 2)]
        ∧ (callGeminiFreeOnly 2 0 (fun _ => .err)).1
            = (match (fun _ => ApiOutcome.err) 2 with | .ok dd => some dd | _ => none)
        ∧ (∀ msg, findRetryHint msg = none → parseRetryDelay msg = 60000)
        ∧ (∀ msg, parseRetryDelay msg ≤ 120000) :=
  ⟨by decide,
   c7_free_only_single_cooldown_retry 2 0 (fun _ => .err) (by decide)
     (fun n _ => rfl)⟩

end SceneWeaver
